import Mathlib

/-!
# The external scanner of tree-sitter-vim (`src/scanner.c`)

A shallow embedding of the scanner: the persistent `Scanner` state, its byte
codec (`serialize` / `deserialize`), the recognizers and the dispatcher
`tree_sitter_vim_external_scanner_scan`, followed by theorems about them.

Conventions of the embedding.

* A code unit of the input (`lexer->lookahead`, an `int32_t`) is a `Nat`; at
  the end of the input the lookahead is `0`.
* A `char` of the C code is the `Nat` of its byte, `0 .. 255`; a store of a
  wider value into a `char` is written `% 256`, and the promotion of a `char`
  to `int` is `char_to_int`, which depends on the signedness of `char`.
* A `char *` is `Option (List Nat)`: `none` is `NULL`, `some b` a non-null
  pointer to the bytes `b`.
-/

namespace VimScanner

/-! ## Data model -/

/-- The token kinds of `enum TokenType`, in declaration order (`TOKENTYPE_NR`,
the number of kinds, is not a kind). -/
inductive TokenType where
  | NO
  | INV
  | CMD_SEPARATOR
  | LINE_CONTINUATION
  | EMBEDDED_SCRIPT_START
  | EMDEDDED_SCRIPT_END
  | STRING
  | COMMENT
  | ENDFUNCTION
  | ENDFOR
  | ENDWHILE
  | ENDIF
  | ENDTRY
  | NORMAL
deriving DecidableEq, Repr

open TokenType

/-- What the C code leaves to the implementation: whether `char` is signed,
whether `malloc(0)` returns `NULL`, and the locale's `iswalpha`, given on the
`int` value of its argument. Of `iswalpha` only two facts are used: the
letters `A-Z`, `a-z` are alphabetic and the zero code unit is not. -/
structure Host where
  char_signed : Bool
  malloc_zero_null : Bool
  iswalpha : Int → Bool
  iswalpha_letter : ∀ c : Int, (65 ≤ c ∧ c ≤ 90) ∨ (97 ≤ c ∧ c ≤ 122) → iswalpha c = true
  iswalpha_nul : iswalpha 0 = false

/-- The state `Scanner`: the pointer `script_marker` and the `uint8_t`
length `marker_len`. -/
structure Scanner where
  script_marker : Option (List Nat)
  marker_len : Nat
deriving DecidableEq, Repr

/-- Modelled from the spec: the cursor `TSLexer` of `tree_sitter/parser.h`,
which is not part of `src/`. `rest` is the unread input (the lookahead is its
head, `0` once it is exhausted), `consumed` logs every character advanced over
with its `skip` flag (most recent first), `marked` is the position of the last
`mark_end` call, and `result_symbol` the reported token kind. -/
structure TSLexer where
  rest : List Nat
  consumed : List (Nat × Bool)
  marked : Option Nat
  result_symbol : TokenType
deriving DecidableEq, Repr

/-- The current lookahead code unit, `lexer->lookahead`. -/
def TSLexer.lookahead (lexer : TSLexer) : Nat := lexer.rest.headD 0

/-- The cursor position: the number of characters advanced over. -/
def TSLexer.pos (lexer : TSLexer) : Nat := lexer.consumed.length

/-- The call `lexer->mark_end(lexer)`: pins the token end at the cursor. -/
def TSLexer.mark_end (lexer : TSLexer) : TSLexer :=
  { lexer with marked := some lexer.pos }

/-- The function `advance`: moves over the lookahead character, recording the
`skip` flag; it has no effect once the input is exhausted. -/
def advance (lexer : TSLexer) (skip : Bool) : TSLexer :=
  match lexer.rest with
  | [] => lexer
  | c :: cs => { lexer with rest := cs, consumed := (c, skip) :: lexer.consumed }

/-- The promotion of a `char` (given by its byte) to `int`. -/
def char_to_int (host : Host) (b : Nat) : Int :=
  if host.char_signed && decide (128 ≤ b) then (b : Int) - 256 else (b : Int)

/-- The macro `IS_SPACE_TABS`. -/
def IS_SPACE_TABS (c : Nat) : Bool := c == 32 || c == 9

/-- The library function `strncpy src n`: the `n` bytes written to the
destination. Bytes are copied up to the first zero byte, the remainder is
filled with zeros. A source list shorter than `n` stands for an array whose
further bytes are zero (the zero-initialised `marker` array). -/
def strncpy : List Nat → Nat → List Nat
  | _, 0 => []
  | [], n + 1 => List.replicate (n + 1) 0
  | c :: cs, n + 1 => if c = 0 then List.replicate (n + 1) 0 else c :: strncpy cs n

/-- The call `malloc(n)` followed by a write of all `n` bytes: a non-null
pointer to those bytes, except that `malloc(0)` may return `NULL`. -/
def malloc (host : Host) (n : Nat) (content : List Nat) : Option (List Nat) :=
  if n = 0 ∧ host.malloc_zero_null = true then none else some content

/-- The bytes of the active terminator: the first `marker_len` bytes behind
`script_marker`. -/
def Scanner.terminator (s : Scanner) : List Nat :=
  (s.script_marker.getD []).take s.marker_len

/-! ## Lifecycle and codec -/

/-- The function `tree_sitter_vim_external_scanner_create`. -/
def tree_sitter_vim_external_scanner_create : Scanner :=
  { script_marker := none, marker_len := 0 }

/-- The function `tree_sitter_vim_external_scanner_serialize`: the bytes
written to the start of `buffer`, and the returned count. -/
def tree_sitter_vim_external_scanner_serialize (s : Scanner) : List Nat × Nat :=
  ((s.marker_len % 256) :: strncpy (s.script_marker.getD []) s.marker_len, s.marker_len + 1)

/-- The function `tree_sitter_vim_external_scanner_deserialize` on a buffer of
`buffer.length` bytes; `none` is a failed `assert`. -/
def tree_sitter_vim_external_scanner_deserialize (s : Scanner) (buffer : List Nat) :
    Option Scanner :=
  if buffer.length = 0 then some s
  else
    let marker_len := buffer.headD 0 % 256
    if marker_len + 1 ≠ buffer.length then none
    else if 0 < marker_len then
      some { script_marker := some (strncpy buffer.tail marker_len), marker_len := marker_len }
    else some { s with marker_len := marker_len }

/-! ## Recognizers -/

/-- The loop of `skip_space_tabs`, bounded by the number of unread characters
(the lookahead at the end of the input is `0`, which ends the loop). -/
def skip_space_tabs_loop : Nat → TSLexer → TSLexer
  | 0, lexer => lexer
  | n + 1, lexer =>
    if IS_SPACE_TABS lexer.lookahead then skip_space_tabs_loop n (advance lexer true)
    else lexer

/-- The function `skip_space_tabs`. -/
def skip_space_tabs (lexer : TSLexer) : TSLexer :=
  skip_space_tabs_loop lexer.rest.length lexer

/-- The function `check_prefix`; `preffix_len` is the length of `preffix`. -/
def check_prefix (lexer : TSLexer) (preffix : List Nat) (token : TokenType) :
    Bool × TSLexer :=
  match preffix with
  | [] => (true, { lexer with result_symbol := token })
  | p :: ps =>
    if lexer.lookahead = p then check_prefix (advance lexer false) ps token
    else (false, lexer)

/-- The marker loop of `try_lex_script_start`; every iteration appends one
byte to `marker`, so `255` iterations reach the cap `UINT8_MAX`. -/
def script_marker_loop : Nat → TSLexer → List Nat → TSLexer × List Nat
  | 0, lexer, marker => (lexer, marker)
  | n + 1, lexer, marker =>
    if !IS_SPACE_TABS lexer.lookahead && lexer.lookahead != 10 && decide (marker.length < 255) then
      script_marker_loop n (advance lexer false) (marker ++ [lexer.lookahead % 256])
    else (lexer, marker)

/-- The function `try_lex_script_start`. -/
def try_lex_script_start (host : Host) (scanner : Scanner) (lexer : TSLexer) :
    Bool × Scanner × TSLexer :=
  if scanner.script_marker.isSome then (false, scanner, lexer)
  else if lexer.lookahead != 60 then (false, scanner, lexer)
  else
    let lexer1 := advance lexer false
    if lexer1.lookahead != 60 then (false, scanner, lexer1)
    else
      let lexer2 := skip_space_tabs (advance lexer1 false)
      let r := script_marker_loop 255 lexer2 []
      let marker_len := r.2.length
      (true,
        { script_marker := malloc host marker_len (strncpy r.2 marker_len),
          marker_len := marker_len % 256 },
        r.1)

/-- The scanning loop of `lex_string`; `none` when `fuel` iterations do not
end it. -/
def lex_string_loop (string_start_char : Nat) : Nat → TSLexer → Option TSLexer
  | 0, _ => none
  | fuel + 1, lexer =>
    if lexer.lookahead != string_start_char && lexer.lookahead != 10 then
      lex_string_loop string_start_char fuel (advance lexer false)
    else some lexer

/-- The function `lex_string`; `none` when its loop does not end within
`fuel` iterations. -/
def lex_string (fuel : Nat) (lexer : TSLexer) : Option (Bool × TSLexer) :=
  if lexer.lookahead != 39 && lexer.lookahead != 34 then some (false, lexer)
  else
    let string_start_char := lexer.lookahead
    match lex_string_loop string_start_char fuel (advance lexer false) with
    | none => none
    | some lexer1 =>
      if lexer1.lookahead == string_start_char then
        some (true, { advance lexer1 false with result_symbol := STRING })
      else
        some (string_start_char == 34, { lexer1 with result_symbol := COMMENT })

/-- The first loop of `try_lex_keyword`, over the mandatory part. -/
def try_lex_keyword_mandatory (lexer : TSLexer) : List Nat → Bool × TSLexer
  | [] => (true, lexer)
  | k :: ks =>
    if lexer.lookahead != k then (false, lexer)
    else try_lex_keyword_mandatory (advance lexer false) ks

/-- The second loop of `try_lex_keyword`, over the optional part; the
lookahead is narrowed to `char c` before it is compared. -/
def try_lex_keyword_optional (host : Host) (lexer : TSLexer) : List Nat → Bool × TSLexer
  | [] => (true, lexer)
  | k :: ks =>
    let c := char_to_int host (lexer.lookahead % 256)
    if c != (k : Int) then
      if host.iswalpha c then (false, lexer) else (true, lexer)
    else try_lex_keyword_optional host (advance lexer false) ks

/-- The function `try_lex_keyword`. -/
def try_lex_keyword (host : Host) (lexer : TSLexer) (keyword : List Nat × List Nat) :
    Bool × TSLexer :=
  match try_lex_keyword_mandatory lexer keyword.1 with
  | (false, lexer1) => (false, lexer1)
  | (true, lexer1) => try_lex_keyword_optional host lexer1 keyword.2

/-- The code units of a string literal. -/
def chars (s : String) : List Nat := s.toList.map Char.toNat

/-- The table `keywords`, each entry with the token kind that indexes it. -/
def keywords : List (TokenType × (List Nat × List Nat)) :=
  [ (ENDFUNCTION, (chars "end", chars "function")),
    (ENDFOR, (chars "end", chars "for")),
    (ENDWHILE, (chars "end", chars "while")),
    (ENDIF, (chars "end", chars "if")),
    (ENDTRY, (chars "end", chars "try")),
    (NORMAL, (chars "norm", chars "al")) ]

/-- The terminator loop of the `EMDEDDED_SCRIPT_END` branch of the scan
function, over the bytes `script_marker[0 .. marker_len)`. -/
def lex_script_end (host : Host) (lexer : TSLexer) : List Nat → Bool × TSLexer
  | [] => (true, lexer)
  | b :: bs =>
    if char_to_int host b != (lexer.lookahead : Int) then (false, lexer)
    else lex_script_end host (advance lexer false) bs

/-- The keyword loop of the scan function, from entry `t` of `keywords` on. -/
def scan_keywords (host : Host) (valid_symbols : TokenType → Bool) (lexer : TSLexer) :
    List (TokenType × (List Nat × List Nat)) → Bool × TSLexer
  | [] => (false, lexer)
  | (t, keyword) :: ts =>
    if valid_symbols t then
      match try_lex_keyword host lexer keyword with
      | (true, lexer1) => (true, { lexer1 with result_symbol := t })
      | (false, lexer1) => scan_keywords host valid_symbols lexer1 ts
    else scan_keywords host valid_symbols lexer ts

/-- The scan function from the comment `Script starts and ends` on. -/
def scan_script_keyword_string (host : Host) (fuel : Nat) (s : Scanner) (lexer : TSLexer)
    (valid_symbols : TokenType → Bool) : Option (Bool × Scanner × TSLexer) :=
  if valid_symbols EMBEDDED_SCRIPT_START then
    some (try_lex_script_start host s { lexer with result_symbol := EMBEDDED_SCRIPT_START })
  else if valid_symbols EMDEDDED_SCRIPT_END then
    if s.marker_len = 0 then some (false, s, lexer)
    else
      match lex_script_end host lexer s.terminator with
      | (false, lexer1) => some (false, s, lexer1)
      | (true, lexer1) =>
        some (true, { s with marker_len := 0 },
          { lexer1 with result_symbol := EMDEDDED_SCRIPT_END })
  else
    match scan_keywords host valid_symbols lexer keywords with
    | (true, lexer1) => some (true, s, lexer1)
    | (false, lexer1) =>
      if valid_symbols STRING || valid_symbols COMMENT then
        match lex_string fuel lexer1 with
        | none => none
        | some (b, lexer2) => some (b, s, lexer2)
      else some (false, s, lexer1)

/-- The function `tree_sitter_vim_external_scanner_scan`: the returned
`bool`, the state and the cursor after the call; `none` when the loop of
`lex_string` does not end within `fuel` iterations. -/
def tree_sitter_vim_external_scanner_scan (host : Host) (fuel : Nat) (s : Scanner)
    (lexer : TSLexer) (valid_symbols : TokenType → Bool) :
    Option (Bool × Scanner × TSLexer) :=
  let lexer0 := skip_space_tabs lexer
  if valid_symbols NO && lexer0.lookahead == 110 then
    let r := check_prefix lexer0 (chars "no") NO
    some (r.1, s, r.2)
  else if valid_symbols INV && lexer0.lookahead == 105 then
    let r := check_prefix lexer0 (chars "inv") INV
    some (r.1, s, r.2)
  else if valid_symbols CMD_SEPARATOR && valid_symbols LINE_CONTINUATION
      && lexer0.lookahead == 10 then
    let lexer1 := skip_space_tabs (advance lexer0 false).mark_end
    if lexer1.lookahead == 92 then
      let lexer2 := advance lexer1 false
      if lexer2.lookahead == 47 || lexer2.lookahead == 63 || lexer2.lookahead == 38 then
        some (true, s, { lexer2 with result_symbol := CMD_SEPARATOR })
      else
        some (true, s, { lexer2.mark_end with result_symbol := LINE_CONTINUATION })
    else
      some (true, s, { lexer1 with result_symbol := CMD_SEPARATOR })
  else if valid_symbols CMD_SEPARATOR && valid_symbols LINE_CONTINUATION
      && lexer0.lookahead == 124 then
    some (true, s, { (advance lexer0 false).mark_end with result_symbol := CMD_SEPARATOR })
  else scan_script_keyword_string host fuel s lexer0 valid_symbols

/-- A host with signed `char`, non-null `malloc(0)` and the `iswalpha` of the
`C` locale (as on x86-64 Linux with glibc). -/
def host_signed : Host where
  char_signed := true
  malloc_zero_null := false
  iswalpha := fun c => decide ((65 ≤ c ∧ c ≤ 90) ∨ (97 ≤ c ∧ c ≤ 122))
  iswalpha_letter := by intro c h; simpa using h
  iswalpha_nul := by decide

/-- A host with unsigned `char`, a `malloc(0)` that returns `NULL`, and the
same `iswalpha`. -/
def host_unsigned : Host where
  char_signed := false
  malloc_zero_null := true
  iswalpha := fun c => decide ((65 ≤ c ∧ c ≤ 90) ∨ (97 ≤ c ∧ c ≤ 122))
  iswalpha_letter := by intro c h; simpa using h
  iswalpha_nul := by decide

/-- A cursor at the start of the input `input`. -/
def TSLexer.start (input : List Nat) : TSLexer :=
  { rest := input, consumed := [], marked := none, result_symbol := NO }

/-- The set of requested kinds given by a list. -/
def requested (kinds : List TokenType) : TokenType → Bool := fun t => decide (t ∈ kinds)

/-! ## Predicates used by the statements -/

/-- No non-zero byte stands after a zero byte. -/
def zero_closed : List Nat → Bool
  | [] => true
  | c :: cs => (c != 0 || cs.all (fun x => x == 0)) && zero_closed cs

/-- The state invariant of the C code: `marker_len` fits a `uint8_t` and the
buffer behind `script_marker` holds at least `marker_len` bytes. -/
def Scanner.WF (s : Scanner) : Prop :=
  s.marker_len ≤ 255 ∧ s.marker_len ≤ (s.script_marker.getD []).length

instance (s : Scanner) : Decidable s.WF := by
  unfold Scanner.WF
  exact inferInstance

/-- The content of a state: terminator length and terminator bytes. -/
def Scanner.content (s : Scanner) : Nat × List Nat := (s.marker_len, s.terminator)

/-- The content of the state obtained by serializing `s` and deserializing
the written bytes into a freshly created state. -/
def roundtrip_content (s : Scanner) : Option (Nat × List Nat) :=
  (tree_sitter_vim_external_scanner_deserialize tree_sitter_vim_external_scanner_create
    (tree_sitter_vim_external_scanner_serialize s).1).map Scanner.content

/-- The log entries of a run of skipped characters, most recent first. -/
def skipped (ws : List Nat) : List (Nat × Bool) := (ws.map (fun c => (c, true))).reverse

/-- The log entries of a run of consumed characters, most recent first. -/
def taken (cs : List Nat) : List (Nat × Bool) := (cs.map (fun c => (c, false))).reverse

/-- Whether one of the gates before the embedded-block recognizers is open at the
lookahead `c`: NO on `n`, INV on `i`, separator/continuation on newline or `|`. -/
def early_gate (valid_symbols : TokenType → Bool) (c : Nat) : Bool :=
  (valid_symbols NO && c == 110) || (valid_symbols INV && c == 105)
    || (valid_symbols CMD_SEPARATOR && valid_symbols LINE_CONTINUATION
        && (c == 10 || c == 124))

/-- The states the scanner can hold: the state `create` returns, and every state
that a successful `deserialize` (of any buffer) or a returning `scan` (on any
host, cursor and requested set) makes of such a state. -/
inductive Reachable : Scanner → Prop where
  | create : Reachable tree_sitter_vim_external_scanner_create
  | deserialize (s s1 : Scanner) (buffer : List Nat) :
      Reachable s → tree_sitter_vim_external_scanner_deserialize s buffer = some s1 →
      Reachable s1
  | scan (host : Host) (fuel : Nat) (s : Scanner) (lexer : TSLexer)
      (valid_symbols : TokenType → Bool) (r : Bool × Scanner × TSLexer) :
      Reachable s →
      tree_sitter_vim_external_scanner_scan host fuel s lexer valid_symbols = some r →
      Reachable r.2.1

/-! ## Theorems -/

theorem strncpy_length (src : List Nat) (n : Nat) : (strncpy src n).length = n := by
  induction n generalizing src with
  | zero => cases src <;> simp [strncpy]
  | succ n ih =>
    cases src with
    | nil => simp [strncpy]
    | cons c cs =>
      by_cases hc : c = 0
      · simp [strncpy, hc]
      · simp [strncpy, hc, ih]

theorem strncpy_take (src : List Nat) (n : Nat) : strncpy (src.take n) n = strncpy src n := by
  induction n generalizing src with
  | zero => cases src <;> simp [strncpy]
  | succ n ih =>
    cases src with
    | nil => simp [strncpy]
    | cons c cs =>
      by_cases hc : c = 0
      · simp [strncpy, hc]
      · simp [strncpy, hc, ih]

theorem strncpy_zero_closed (t : List Nat) (h : zero_closed t = true) :
    strncpy t t.length = t := by
  induction t with
  | nil => simp [strncpy]
  | cons c cs ih =>
    simp only [zero_closed, Bool.and_eq_true, Bool.or_eq_true, bne_iff_ne, ne_eq,
      List.all_eq_true, beq_iff_eq] at h
    by_cases hc : c = 0
    · subst hc
      have hall : ∀ x ∈ cs, x = 0 := by
        rcases h.1 with h0 | h0
        · exact absurd rfl h0
        · exact h0
      simp only [List.length_cons, strncpy, if_true]
      rw [List.replicate_succ]
      congr 1
      exact (List.eq_replicate_iff.mpr ⟨rfl, hall⟩).symm
    · simp [strncpy, hc, ih h.2]

/-! ### The round trip of the codec on a terminator kept by `strncpy` -/

/-- A hand-built state whose terminator is the three bytes `65, 0, 66` would not
survive the round trip (`strncpy` stops at the zero byte); the scanner never
holds such a state, see `reachable_inv`. -/
theorem roundtrip_interior_zero :
    roundtrip_content { script_marker := some [65, 0, 66], marker_len := 3 }
      = some (3, [65, 0, 0])
    ∧ Scanner.content { script_marker := some [65, 0, 66], marker_len := 3 }
      = (3, [65, 0, 66]) := by decide

/-- For every state whose length fits a byte, whose buffer holds its terminator
and whose terminator has no non-zero byte after a zero byte, serializing it and
deserializing the written bytes into a freshly created state succeeds and gives
the same terminator length and bytes. -/
theorem roundtrip_zero_closed (s : Scanner) (hwf : s.WF) (hz : zero_closed s.terminator = true) :
    roundtrip_content s = some s.content := by
  obtain ⟨h255, hlen⟩ := hwf
  have ht : s.terminator.length = s.marker_len := by
    simp [Scanner.terminator, List.length_take, hlen]
  have hcopy2 : strncpy s.terminator s.marker_len = s.terminator := by
    have := strncpy_zero_closed s.terminator hz
    rw [ht] at this
    exact this
  have hcopy : strncpy (s.script_marker.getD []) s.marker_len = s.terminator := by
    rw [← strncpy_take]
    exact hcopy2
  have hmod : s.marker_len % 256 = s.marker_len := Nat.mod_eq_of_lt (by omega)
  have hne : ¬ (s.marker_len + 1 = 0) := by omega
  simp only [roundtrip_content, tree_sitter_vim_external_scanner_serialize,
    tree_sitter_vim_external_scanner_deserialize, hcopy, hmod, List.length_cons, ht,
    List.headD_cons, List.tail_cons, tree_sitter_vim_external_scanner_create, hne, if_false,
    ne_eq, not_true_eq_false]
  by_cases h0 : 0 < s.marker_len
  · rw [if_pos h0]
    simp only [Option.map_some', Scanner.content, Option.some.injEq, Prod.mk.injEq, true_and]
    rw [hcopy2]
    show List.take s.marker_len s.terminator = s.terminator
    rw [← ht, List.take_length]
  · have hz0 : s.marker_len = 0 := by omega
    rw [if_neg h0]
    simp only [Option.map_some', Scanner.content, Option.some.injEq, Prod.mk.injEq]
    simp [hz0, Scanner.terminator]

/-! ### The cursor and the leading skip -/

theorem advance_cons (lexer : TSLexer) (c : Nat) (cs : List Nat) (skip : Bool)
    (h : lexer.rest = c :: cs) :
    advance lexer skip = { lexer with rest := cs, consumed := (c, skip) :: lexer.consumed } := by
  simp [advance, h]

theorem lookahead_cons (lexer : TSLexer) (c : Nat) (cs : List Nat) (h : lexer.rest = c :: cs) :
    lexer.lookahead = c := by
  simp [TSLexer.lookahead, h]

theorem skip_space_tabs_loop_spec (n : Nat) (ws r : List Nat) (lexer : TSLexer)
    (hn : ws.length ≤ n) (hrest : lexer.rest = ws ++ r)
    (hws : ∀ c ∈ ws, IS_SPACE_TABS c = true) (hr : IS_SPACE_TABS (r.headD 0) = false) :
    skip_space_tabs_loop n lexer
      = { lexer with rest := r, consumed := skipped ws ++ lexer.consumed } := by
  induction n generalizing ws lexer with
  | zero =>
    have : ws = [] := List.eq_nil_of_length_eq_zero (by omega)
    subst this
    simp only [List.nil_append] at hrest
    simp [skip_space_tabs_loop, skipped, ← hrest]
  | succ n ih =>
    cases ws with
    | nil =>
      simp only [List.nil_append] at hrest
      have hl : lexer.lookahead = r.headD 0 := by simp [TSLexer.lookahead, hrest]
      rw [skip_space_tabs_loop, hl, hr]
      simp [skipped, ← hrest]
    | cons w ws =>
      have hl : lexer.lookahead = w := lookahead_cons lexer w (ws ++ r) hrest
      have hw : IS_SPACE_TABS w = true := hws w (by simp)
      rw [skip_space_tabs_loop, hl, if_pos hw, advance_cons lexer w (ws ++ r) true hrest]
      rw [ih ws _ (by simpa using hn) rfl (fun c hc => hws c (by simp [hc]))]
      simp [skipped]

/-- The function `skip_space_tabs` moves over a maximal run of spaces and tabs,
each as skipped. -/
theorem skip_space_tabs_spec (ws r : List Nat) (lexer : TSLexer)
    (hrest : lexer.rest = ws ++ r)
    (hws : ∀ c ∈ ws, IS_SPACE_TABS c = true) (hr : IS_SPACE_TABS (r.headD 0) = false) :
    skip_space_tabs lexer
      = { lexer with rest := r, consumed := skipped ws ++ lexer.consumed } := by
  unfold skip_space_tabs
  exact skip_space_tabs_loop_spec _ ws r lexer (by simp [hrest]) hrest hws hr

/-- Every input splits into its leading run of spaces and tabs and a remainder
whose first character is neither. -/
theorem split_space_tabs (l : List Nat) :
    ∃ ws r, l = ws ++ r ∧ (∀ c ∈ ws, IS_SPACE_TABS c = true)
      ∧ IS_SPACE_TABS (r.headD 0) = false := by
  induction l with
  | nil => exact ⟨[], [], rfl, by simp, by decide⟩
  | cons c cs ih =>
    by_cases hc : IS_SPACE_TABS c = true
    · obtain ⟨ws, r, h1, h2, h3⟩ := ih
      refine ⟨c :: ws, r, by simp [h1], ?_, h3⟩
      intro x hx
      rcases List.mem_cons.mp hx with hx | hx
      · exact hx ▸ hc
      · exact h2 x hx
    · exact ⟨[], c :: cs, rfl, by simp, by simpa using hc⟩

/-- The split of `split_space_tabs` is unique. -/
theorem split_space_tabs_unique (ws ws' r r' : List Nat) (h : ws ++ r = ws' ++ r')
    (hws : ∀ c ∈ ws, IS_SPACE_TABS c = true) (hws' : ∀ c ∈ ws', IS_SPACE_TABS c = true)
    (hr : IS_SPACE_TABS (r.headD 0) = false) (hr' : IS_SPACE_TABS (r'.headD 0) = false) :
    ws = ws' ∧ r = r' := by
  induction ws generalizing ws' with
  | nil =>
    cases ws' with
    | nil => exact ⟨rfl, by simpa using h⟩
    | cons w' ws' =>
      simp only [List.nil_append, List.cons_append] at h
      have := hws' w' (by simp)
      rw [h] at hr
      simp [this] at hr
  | cons w ws ih =>
    cases ws' with
    | nil =>
      simp only [List.nil_append, List.cons_append] at h
      have := hws w (by simp)
      rw [← h] at hr'
      simp [this] at hr'
    | cons w' ws' =>
      simp only [List.cons_append, List.cons.injEq] at h
      obtain ⟨h1, h2⟩ := ih ws' h.2 (fun c hc => hws c (by simp [hc]))
        (fun c hc => hws' c (by simp [hc]))
      exact ⟨by rw [h.1, h1], h2⟩

/-! ### C2, C3: separator and line continuation -/

theorem pos_after_skip (lexer : TSLexer) (ws : List Nat) :
    (skipped ws ++ lexer.consumed).length = lexer.pos + ws.length := by
  simp [skipped, TSLexer.pos]; omega

/-- The cursor after the leading skip, the newline and its pin, and the
second skip, in the separator branch of the scan function. -/
theorem scan_newline_cursor (lexer : TSLexer) (ws ws2 r2 : List Nat)
    (hrest : lexer.rest = ws ++ 10 :: (ws2 ++ r2))
    (hws : ∀ c ∈ ws, IS_SPACE_TABS c = true) (hws2 : ∀ c ∈ ws2, IS_SPACE_TABS c = true)
    (hr2 : IS_SPACE_TABS (r2.headD 0) = false) :
    (skip_space_tabs lexer).lookahead = 10 ∧
    skip_space_tabs (advance (skip_space_tabs lexer) false).mark_end
      = { rest := r2,
          consumed := skipped ws2 ++ (10, false) :: (skipped ws ++ lexer.consumed),
          marked := some (lexer.pos + ws.length + 1),
          result_symbol := lexer.result_symbol } := by
  have h0 := skip_space_tabs_spec ws (10 :: (ws2 ++ r2)) lexer hrest hws
    (by simp [IS_SPACE_TABS])
  rw [h0]
  refine ⟨rfl, ?_⟩
  have e1 : (advance
        ({ rest := 10 :: (ws2 ++ r2), consumed := skipped ws ++ lexer.consumed,
           marked := lexer.marked, result_symbol := lexer.result_symbol } : TSLexer)
        false).mark_end
      = { rest := ws2 ++ r2, consumed := (10, false) :: (skipped ws ++ lexer.consumed),
          marked := some (lexer.pos + ws.length + 1),
          result_symbol := lexer.result_symbol } := by
    simp [advance, TSLexer.mark_end, TSLexer.pos, skipped]; omega
  rw [e1]
  exact skip_space_tabs_spec ws2 r2 _ rfl hws2 hr2

theorem scan_newline_plain (host : Host) (fuel : Nat) (s : Scanner) (lexer : TSLexer)
    (valid_symbols : TokenType → Bool) (ws ws2 r2 : List Nat)
    (hrest : lexer.rest = ws ++ 10 :: (ws2 ++ r2))
    (hws : ∀ c ∈ ws, IS_SPACE_TABS c = true) (hws2 : ∀ c ∈ ws2, IS_SPACE_TABS c = true)
    (hr2 : IS_SPACE_TABS (r2.headD 0) = false)
    (hsep : valid_symbols CMD_SEPARATOR = true) (hlc : valid_symbols LINE_CONTINUATION = true)
    (hplain : r2.headD 0 ≠ 92) :
    tree_sitter_vim_external_scanner_scan host fuel s lexer valid_symbols
      = some (true, s,
          { rest := r2,
            consumed := skipped ws2 ++ (10, false) :: (skipped ws ++ lexer.consumed),
            marked := some (lexer.pos + ws.length + 1),
            result_symbol := CMD_SEPARATOR }) := by
  obtain ⟨hl, hc⟩ := scan_newline_cursor lexer ws ws2 r2 hrest hws hws2 hr2
  have hp : r2.head?.getD 0 ≠ 92 := by simpa using hplain
  simp only [tree_sitter_vim_external_scanner_scan, hl, hc, hsep, hlc]
  simp [TSLexer.lookahead, hp]

theorem scan_newline_range (host : Host) (fuel : Nat) (s : Scanner) (lexer : TSLexer)
    (valid_symbols : TokenType → Bool) (ws ws2 tail : List Nat)
    (hrest : lexer.rest = ws ++ 10 :: (ws2 ++ 92 :: tail))
    (hws : ∀ c ∈ ws, IS_SPACE_TABS c = true) (hws2 : ∀ c ∈ ws2, IS_SPACE_TABS c = true)
    (hsep : valid_symbols CMD_SEPARATOR = true) (hlc : valid_symbols LINE_CONTINUATION = true)
    (hrange : tail.headD 0 = 47 ∨ tail.headD 0 = 63 ∨ tail.headD 0 = 38) :
    tree_sitter_vim_external_scanner_scan host fuel s lexer valid_symbols
      = some (true, s,
          { rest := tail,
            consumed := (92, false) :: (skipped ws2 ++ (10, false) :: (skipped ws ++ lexer.consumed)),
            marked := some (lexer.pos + ws.length + 1),
            result_symbol := CMD_SEPARATOR }) := by
  obtain ⟨hl, hc⟩ := scan_newline_cursor lexer ws ws2 (92 :: tail) hrest hws hws2
    (by simp [IS_SPACE_TABS])
  simp only [tree_sitter_vim_external_scanner_scan, hl, hc, hsep, hlc]
  have hr : tail.head?.getD 0 = 47 ∨ tail.head?.getD 0 = 63 ∨ tail.head?.getD 0 = 38 := by
    simpa using hrange
  rcases hr with h | h | h <;> simp [TSLexer.lookahead, advance, h]

theorem scan_newline_continuation (host : Host) (fuel : Nat) (s : Scanner) (lexer : TSLexer)
    (valid_symbols : TokenType → Bool) (ws ws2 tail : List Nat)
    (hrest : lexer.rest = ws ++ 10 :: (ws2 ++ 92 :: tail))
    (hws : ∀ c ∈ ws, IS_SPACE_TABS c = true) (hws2 : ∀ c ∈ ws2, IS_SPACE_TABS c = true)
    (hsep : valid_symbols CMD_SEPARATOR = true) (hlc : valid_symbols LINE_CONTINUATION = true)
    (hcont : tail.headD 0 ≠ 47 ∧ tail.headD 0 ≠ 63 ∧ tail.headD 0 ≠ 38) :
    tree_sitter_vim_external_scanner_scan host fuel s lexer valid_symbols
      = some (true, s,
          { rest := tail,
            consumed := (92, false) :: (skipped ws2 ++ (10, false) :: (skipped ws ++ lexer.consumed)),
            marked := some (lexer.pos + ws.length + 1 + ws2.length + 1),
            result_symbol := LINE_CONTINUATION }) := by
  obtain ⟨hl, hc⟩ := scan_newline_cursor lexer ws ws2 (92 :: tail) hrest hws hws2
    (by simp [IS_SPACE_TABS])
  simp only [tree_sitter_vim_external_scanner_scan, hl, hc, hsep, hlc]
  have hr : tail.head?.getD 0 ≠ 47 ∧ tail.head?.getD 0 ≠ 63 ∧ tail.head?.getD 0 ≠ 38 := by
    simpa using hcont
  simp [TSLexer.lookahead, advance, TSLexer.mark_end, TSLexer.pos, skipped, hr.1, hr.2.1,
    hr.2.2]
  omega

theorem scan_bar (host : Host) (fuel : Nat) (s : Scanner) (lexer : TSLexer)
    (valid_symbols : TokenType → Bool) (ws tail : List Nat)
    (hrest : lexer.rest = ws ++ 124 :: tail)
    (hws : ∀ c ∈ ws, IS_SPACE_TABS c = true)
    (hsep : valid_symbols CMD_SEPARATOR = true) (hlc : valid_symbols LINE_CONTINUATION = true) :
    tree_sitter_vim_external_scanner_scan host fuel s lexer valid_symbols
      = some (true, s,
          { rest := tail,
            consumed := (124, false) :: (skipped ws ++ lexer.consumed),
            marked := some (lexer.pos + ws.length + 1),
            result_symbol := CMD_SEPARATOR }) := by
  have h0 := skip_space_tabs_spec ws (124 :: tail) lexer hrest hws (by simp [IS_SPACE_TABS])
  simp only [tree_sitter_vim_external_scanner_scan, h0, hsep, hlc]
  simp [TSLexer.lookahead, advance, TSLexer.mark_end, TSLexer.pos, skipped]
  omega

/-- C2: with both CMD_SEPARATOR and LINE_CONTINUATION requested, on every input
whose first character after leading spaces/tabs is a newline, the scan reports
a token and leaves the state as it was; the token is LINE_CONTINUATION exactly
when the newline is followed by spaces/tabs (possibly none), a backslash, and
then a lookahead (the zero code unit at the end of the input) that is none of
`/`, `?`, `&`; otherwise it is CMD_SEPARATOR. -/
theorem C2_separator_or_continuation (host : Host) (fuel : Nat) (s : Scanner)
    (lexer : TSLexer) (valid_symbols : TokenType → Bool) (ws after : List Nat)
    (hrest : lexer.rest = ws ++ 10 :: after) (hws : ∀ c ∈ ws, IS_SPACE_TABS c = true)
    (hsep : valid_symbols CMD_SEPARATOR = true)
    (hlc : valid_symbols LINE_CONTINUATION = true) :
    ∃ lexer1, tree_sitter_vim_external_scanner_scan host fuel s lexer valid_symbols
        = some (true, s, lexer1)
      ∧ (lexer1.result_symbol = LINE_CONTINUATION ∨ lexer1.result_symbol = CMD_SEPARATOR)
      ∧ (lexer1.result_symbol = LINE_CONTINUATION ↔
          ∃ ws2 tail, (∀ c ∈ ws2, IS_SPACE_TABS c = true) ∧ after = ws2 ++ 92 :: tail
            ∧ tail.headD 0 ≠ 47 ∧ tail.headD 0 ≠ 63 ∧ tail.headD 0 ≠ 38) := by
  obtain ⟨ws2, r2, hsplit, hws2, hr2⟩ := split_space_tabs after
  subst hsplit
  by_cases h92 : r2.headD 0 = 92
  · obtain ⟨tail, rfl⟩ : ∃ tail, r2 = 92 :: tail := by
      cases r2 with
      | nil => simp at h92
      | cons c cs => exact ⟨cs, by simp at h92; rw [h92]⟩
    by_cases hrange : tail.headD 0 = 47 ∨ tail.headD 0 = 63 ∨ tail.headD 0 = 38
    · refine ⟨_, scan_newline_range host fuel s lexer valid_symbols ws ws2 tail hrest hws hws2
        hsep hlc hrange, Or.inr rfl, ?_⟩
      constructor
      · intro h; cases h
      · rintro ⟨ws3, tail3, hws3, heq, h1, h2, h3⟩
        obtain ⟨-, ht⟩ := split_space_tabs_unique ws2 ws3 (92 :: tail) (92 :: tail3) heq hws2 hws3
          (by simp [IS_SPACE_TABS]) (by simp [IS_SPACE_TABS])
        simp only [List.cons.injEq, true_and] at ht
        subst ht
        rcases hrange with h | h | h
        · exact absurd h h1
        · exact absurd h h2
        · exact absurd h h3
    · have hcont : tail.headD 0 ≠ 47 ∧ tail.headD 0 ≠ 63 ∧ tail.headD 0 ≠ 38 := by
        refine ⟨fun h => hrange (Or.inl h), fun h => hrange (Or.inr (Or.inl h)),
          fun h => hrange (Or.inr (Or.inr h))⟩
      refine ⟨_, scan_newline_continuation host fuel s lexer valid_symbols ws ws2 tail hrest hws
        hws2 hsep hlc hcont, Or.inl rfl, ?_⟩
      constructor
      · intro _
        exact ⟨ws2, tail, hws2, rfl, hcont⟩
      · intro _
        rfl
  · refine ⟨_, scan_newline_plain host fuel s lexer valid_symbols ws ws2 r2 hrest hws hws2 hr2
      hsep hlc h92, Or.inr rfl, ?_⟩
    constructor
    · intro h; cases h
    · rintro ⟨ws3, tail3, hws3, heq, -⟩
      obtain ⟨-, ht⟩ := split_space_tabs_unique ws2 ws3 r2 (92 :: tail3) heq hws2 hws3
        hr2 (by simp [IS_SPACE_TABS])
      subst ht
      simp at h92

/-- C2, witness: the inputs `"\n  \\x"` and `"\n  \\/rest"` of the claim. -/
theorem C2_separator_or_continuation_witness :
    (∃ lexer1, tree_sitter_vim_external_scanner_scan host_signed 0
        tree_sitter_vim_external_scanner_create (TSLexer.start (chars "\n  \\x"))
        (requested [CMD_SEPARATOR, LINE_CONTINUATION])
        = some (true, tree_sitter_vim_external_scanner_create, lexer1)
      ∧ (lexer1.result_symbol = LINE_CONTINUATION ∨ lexer1.result_symbol = CMD_SEPARATOR)
      ∧ (lexer1.result_symbol = LINE_CONTINUATION ↔
          ∃ ws2 tail, (∀ c ∈ ws2, IS_SPACE_TABS c = true) ∧ chars "  \\x" = ws2 ++ 92 :: tail
            ∧ tail.headD 0 ≠ 47 ∧ tail.headD 0 ≠ 63 ∧ tail.headD 0 ≠ 38))
    ∧ (tree_sitter_vim_external_scanner_scan host_signed 0
        tree_sitter_vim_external_scanner_create (TSLexer.start (chars "\n  \\/rest"))
        (requested [CMD_SEPARATOR, LINE_CONTINUATION])).map (fun r => r.2.2.result_symbol)
        = some CMD_SEPARATOR :=
  ⟨C2_separator_or_continuation host_signed 0 tree_sitter_vim_external_scanner_create
      (TSLexer.start (chars "\n  \\x")) (requested [CMD_SEPARATOR, LINE_CONTINUATION])
      [] (chars "  \\x") rfl (by decide) rfl rfl,
    by decide⟩

/-- C3: with both CMD_SEPARATOR and LINE_CONTINUATION requested, the position of
the last `mark_end` call of the reported token is right after the `|` for a `|`
separator, right after the newline for a newline CMD_SEPARATOR (the spaces/tabs
and the backslash looked at lie beyond it), and right after the backslash for
LINE_CONTINUATION. Positions count the characters the cursor has moved over. -/
theorem C3_pinned_end_boundary (host : Host) (fuel : Nat) (s : Scanner)
    (lexer : TSLexer) (valid_symbols : TokenType → Bool) (ws : List Nat)
    (hws : ∀ c ∈ ws, IS_SPACE_TABS c = true)
    (hsep : valid_symbols CMD_SEPARATOR = true)
    (hlc : valid_symbols LINE_CONTINUATION = true) :
    (∀ tail, lexer.rest = ws ++ 124 :: tail →
      ∃ lexer1, tree_sitter_vim_external_scanner_scan host fuel s lexer valid_symbols
          = some (true, s, lexer1)
        ∧ lexer1.result_symbol = CMD_SEPARATOR
        ∧ lexer1.marked = some (lexer.pos + ws.length + 1)
        ∧ lexer1.pos = lexer.pos + ws.length + 1)
    ∧ (∀ ws2 r2, lexer.rest = ws ++ 10 :: (ws2 ++ r2) →
        (∀ c ∈ ws2, IS_SPACE_TABS c = true) → IS_SPACE_TABS (r2.headD 0) = false →
      ∃ lexer1, tree_sitter_vim_external_scanner_scan host fuel s lexer valid_symbols
          = some (true, s, lexer1)
        ∧ (lexer1.result_symbol = CMD_SEPARATOR ∨ lexer1.result_symbol = LINE_CONTINUATION)
        ∧ (lexer1.result_symbol = CMD_SEPARATOR →
            lexer1.marked = some (lexer.pos + ws.length + 1)
            ∧ lexer.pos + ws.length + 1 + ws2.length ≤ lexer1.pos)
        ∧ (lexer1.result_symbol = LINE_CONTINUATION →
            r2.head? = some 92
            ∧ lexer1.marked = some (lexer.pos + ws.length + 1 + ws2.length + 1)
            ∧ lexer1.pos = lexer.pos + ws.length + 1 + ws2.length + 1)) := by
  constructor
  · intro tail hrest
    refine ⟨_, scan_bar host fuel s lexer valid_symbols ws tail hrest hws hsep hlc, rfl, rfl, ?_⟩
    simp [TSLexer.pos, skipped]; omega
  · intro ws2 r2 hrest hws2 hr2
    by_cases h92 : r2.headD 0 = 92
    · obtain ⟨tail, rfl⟩ : ∃ tail, r2 = 92 :: tail := by
        cases r2 with
        | nil => simp at h92
        | cons c cs => exact ⟨cs, by simp at h92; rw [h92]⟩
      by_cases hrange : tail.headD 0 = 47 ∨ tail.headD 0 = 63 ∨ tail.headD 0 = 38
      · refine ⟨_, scan_newline_range host fuel s lexer valid_symbols ws ws2 tail hrest hws hws2
          hsep hlc hrange, Or.inl rfl, ?_, ?_⟩
        · intro _
          refine ⟨rfl, ?_⟩
          simp [TSLexer.pos, skipped]; omega
        · intro h; cases h
      · have hcont : tail.headD 0 ≠ 47 ∧ tail.headD 0 ≠ 63 ∧ tail.headD 0 ≠ 38 := by
          refine ⟨fun h => hrange (Or.inl h), fun h => hrange (Or.inr (Or.inl h)),
            fun h => hrange (Or.inr (Or.inr h))⟩
        refine ⟨_, scan_newline_continuation host fuel s lexer valid_symbols ws ws2 tail hrest
          hws hws2 hsep hlc hcont, Or.inr rfl, ?_, ?_⟩
        · intro h; cases h
        · intro _
          refine ⟨rfl, rfl, ?_⟩
          simp [TSLexer.pos, skipped]; omega
    · refine ⟨_, scan_newline_plain host fuel s lexer valid_symbols ws ws2 r2 hrest hws hws2 hr2
        hsep hlc h92, Or.inl rfl, ?_, ?_⟩
      · intro _
        refine ⟨rfl, ?_⟩
        simp [TSLexer.pos, skipped]; omega
      · intro h; cases h

/-- C3, witness: on `"\n  \\x"` the continuation token ends after the backslash
(position 4), and on `"  |x"` the separator ends after the bar (position 3). -/
theorem C3_pinned_end_boundary_witness :
    (∃ lexer1, tree_sitter_vim_external_scanner_scan host_signed 0
        tree_sitter_vim_external_scanner_create (TSLexer.start (chars "  |x"))
        (requested [CMD_SEPARATOR, LINE_CONTINUATION])
        = some (true, tree_sitter_vim_external_scanner_create, lexer1)
      ∧ lexer1.result_symbol = CMD_SEPARATOR
      ∧ lexer1.marked = some ((TSLexer.start (chars "  |x")).pos + (chars "  ").length + 1)
      ∧ lexer1.pos = (TSLexer.start (chars "  |x")).pos + (chars "  ").length + 1)
    ∧ (tree_sitter_vim_external_scanner_scan host_signed 0
        tree_sitter_vim_external_scanner_create (TSLexer.start (chars "\n  \\x"))
        (requested [CMD_SEPARATOR, LINE_CONTINUATION])).map (fun r => r.2.2.marked)
        = some (some 4) :=
  ⟨(C3_pinned_end_boundary host_signed 0 tree_sitter_vim_external_scanner_create
      (TSLexer.start (chars "  |x")) (requested [CMD_SEPARATOR, LINE_CONTINUATION])
      (chars "  ") (by decide) rfl rfl).1 (chars "x") rfl,
    by decide⟩

/-! ### Helpers for the dispatcher and the embedded-block recognizers -/

theorem skip_space_tabs_id (lexer : TSLexer) (h : IS_SPACE_TABS lexer.lookahead = false) :
    skip_space_tabs lexer = lexer := by
  have := skip_space_tabs_spec [] lexer.rest lexer rfl (by simp) h
  rw [this]
  simp [skipped]

/-- The dispatcher reaches the block, keyword and string recognizers when none of
the gates before them holds at the lookahead after the leading skip. -/
theorem scan_falls_to_script (host : Host) (fuel : Nat) (s : Scanner) (lexer : TSLexer)
    (valid_symbols : TokenType → Bool)
    (hno : ¬ (valid_symbols NO = true ∧ (skip_space_tabs lexer).lookahead = 110))
    (hinv : ¬ (valid_symbols INV = true ∧ (skip_space_tabs lexer).lookahead = 105))
    (hsep : ¬ (valid_symbols CMD_SEPARATOR = true ∧ valid_symbols LINE_CONTINUATION = true
      ∧ ((skip_space_tabs lexer).lookahead = 10 ∨ (skip_space_tabs lexer).lookahead = 124))) :
    tree_sitter_vim_external_scanner_scan host fuel s lexer valid_symbols
      = scan_script_keyword_string host fuel s (skip_space_tabs lexer) valid_symbols := by
  unfold tree_sitter_vim_external_scanner_scan
  have h1 : (valid_symbols NO && (skip_space_tabs lexer).lookahead == 110) = false := by
    rw [Bool.and_eq_false_iff]
    by_cases h : valid_symbols NO = true
    · right
      simpa using fun h' => hno ⟨h, h'⟩
    · left
      simpa using h
  have h2 : (valid_symbols INV && (skip_space_tabs lexer).lookahead == 105) = false := by
    rw [Bool.and_eq_false_iff]
    by_cases h : valid_symbols INV = true
    · right
      simpa using fun h' => hinv ⟨h, h'⟩
    · left
      simpa using h
  have h3 : (valid_symbols CMD_SEPARATOR && valid_symbols LINE_CONTINUATION
      && (skip_space_tabs lexer).lookahead == 10) = false := by
    by_contra hc
    simp only [Bool.not_eq_false, Bool.and_eq_true, beq_iff_eq] at hc
    exact hsep ⟨hc.1.1, hc.1.2, Or.inl hc.2⟩
  have h4 : (valid_symbols CMD_SEPARATOR && valid_symbols LINE_CONTINUATION
      && (skip_space_tabs lexer).lookahead == 124) = false := by
    by_contra hc
    simp only [Bool.not_eq_false, Bool.and_eq_true, beq_iff_eq] at hc
    exact hsep ⟨hc.1.1, hc.1.2, Or.inr hc.2⟩
  simp only [h1, h2, h3, h4, Bool.false_eq_true, if_false]

theorem script_marker_loop_spec (n : Nat) (m : List Nat) (lexer : TSLexer) (acc : List Nat)
    (d : Nat) (rest1 : List Nat) (hn : m.length ≤ n) (hcap : acc.length + m.length ≤ 255)
    (hrest : lexer.rest = m ++ d :: rest1)
    (hm : ∀ c ∈ m, IS_SPACE_TABS c = false ∧ c ≠ 10)
    (hd : IS_SPACE_TABS d = true ∨ d = 10) :
    script_marker_loop n lexer acc
      = ({ rest := d :: rest1, consumed := taken m ++ lexer.consumed, marked := lexer.marked,
           result_symbol := lexer.result_symbol },
         acc ++ m.map (fun c => c % 256)) := by
  induction m generalizing n lexer acc with
  | nil =>
    simp only [List.nil_append] at hrest
    have hl : lexer.lookahead = d := lookahead_cons lexer d rest1 hrest
    cases n with
    | zero => simp [script_marker_loop, taken, ← hrest]
    | succ n =>
      rw [script_marker_loop, hl]
      have : (!IS_SPACE_TABS d && d != 10 && decide (acc.length < 255)) = false := by
        rcases hd with h | h
        · simp [h]
        · simp [h]
      rw [this]
      simp [taken, ← hrest]
  | cons c cs ih =>
    cases n with
    | zero => simp at hn
    | succ n =>
      have hl : lexer.lookahead = c := lookahead_cons lexer c (cs ++ d :: rest1) hrest
      have hc := hm c (by simp)
      simp only [List.length_cons] at hcap hn
      have hcond : (!IS_SPACE_TABS c && c != 10 && decide (acc.length < 255)) = true := by
        simp [hc.1, hc.2]; omega
      rw [script_marker_loop, hl, hcond, if_pos rfl,
        advance_cons lexer c (cs ++ d :: rest1) false hrest]
      rw [ih n _ (acc ++ [c % 256]) (by omega) (by simp; omega) rfl
        (fun x hx => hm x (by simp [hx]))]
      simp [taken]

theorem strncpy_no_zero (t : List Nat) (h : ∀ c ∈ t, c ≠ 0) : strncpy t t.length = t := by
  induction t with
  | nil => simp [strncpy]
  | cons c cs ih =>
    have hc : c ≠ 0 := h c (by simp)
    simp [strncpy, hc, ih (fun x hx => h x (by simp [hx]))]

theorem lex_script_end_spec (host : Host) (m : List Nat) (lexer : TSLexer) (rest2 : List Nat)
    (hrest : lexer.rest = m ++ rest2) (hm : ∀ c ∈ m, char_to_int host c = (c : Int)) :
    lex_script_end host lexer m
      = (true, { rest := rest2, consumed := taken m ++ lexer.consumed, marked := lexer.marked,
                 result_symbol := lexer.result_symbol }) := by
  induction m generalizing lexer with
  | nil =>
    simp only [List.nil_append] at hrest
    simp [lex_script_end, taken, ← hrest]
  | cons c cs ih =>
    have hl : lexer.lookahead = c := lookahead_cons lexer c (cs ++ rest2) hrest
    have hc := hm c (by simp)
    rw [lex_script_end, hl, hc]
    simp only [bne_self_eq_false, Bool.false_eq_true, if_false]
    rw [advance_cons lexer c (cs ++ rest2) false hrest,
      ih _ rfl (fun x hx => hm x (by simp [hx]))]
    simp [taken]

theorem char_to_int_small (host : Host) (c : Nat)
    (h : host.char_signed = true → c < 128) : char_to_int host c = (c : Int) := by
  unfold char_to_int
  by_cases hs : host.char_signed = true
  · have := h hs
    simp [hs]; omega
  · simp [hs]

/-- The start recognizer on `<<`, spaces/tabs, a run `m` of at most 255
characters that are no space, tab or newline, and a delimiter `d`. -/
theorem try_lex_script_start_spec (host : Host) (s : Scanner) (lexer : TSLexer)
    (ws m rest1 : List Nat) (d : Nat)
    (hs : s.script_marker = none) (hm2 : m.length ≤ 255)
    (hm : ∀ c ∈ m, IS_SPACE_TABS c = false ∧ c ≠ 10)
    (hws : ∀ c ∈ ws, IS_SPACE_TABS c = true)
    (hd : IS_SPACE_TABS d = true ∨ d = 10) (hne : m ≠ [] ∨ d = 10)
    (hrest : lexer.rest = 60 :: 60 :: (ws ++ (m ++ d :: rest1))) :
    try_lex_script_start host s lexer
      = (true,
          { script_marker := malloc host m.length (strncpy (m.map (fun c => c % 256)) m.length),
            marker_len := m.length % 256 },
          { rest := d :: rest1,
            consumed := taken m ++ (skipped ws ++ (60, false) :: (60, false) :: lexer.consumed),
            marked := lexer.marked,
            result_symbol := lexer.result_symbol }) := by
  have hl : lexer.lookahead = 60 := lookahead_cons lexer 60 _ hrest
  have ha1 := advance_cons lexer 60 _ false hrest
  have hl1 : (advance lexer false).lookahead = 60 := by rw [ha1]; rfl
  have ha2 : advance (advance lexer false) false
      = { rest := ws ++ (m ++ d :: rest1),
          consumed := (60, false) :: (60, false) :: lexer.consumed,
          marked := lexer.marked, result_symbol := lexer.result_symbol } := by
    rw [ha1]; rfl
  have hhead : IS_SPACE_TABS ((m ++ d :: rest1).headD 0) = false := by
    cases m with
    | nil =>
      rcases hne with h | h
      · exact absurd rfl h
      · simp [h, IS_SPACE_TABS]
    | cons c cs => simpa using (hm c (by simp)).1
  have hskip := skip_space_tabs_spec ws (m ++ d :: rest1)
    ({ rest := ws ++ (m ++ d :: rest1),
       consumed := (60, false) :: (60, false) :: lexer.consumed,
       marked := lexer.marked, result_symbol := lexer.result_symbol } : TSLexer) rfl hws hhead
  have hloop := script_marker_loop_spec 255 m
    ({ rest := m ++ d :: rest1,
       consumed := skipped ws ++ (60, false) :: (60, false) :: lexer.consumed,
       marked := lexer.marked, result_symbol := lexer.result_symbol } : TSLexer)
    [] d rest1 hm2 (by simpa using hm2) rfl hm hd
  simp only [try_lex_script_start, hs, Option.isSome_none, Bool.false_eq_true, if_false, hl,
    hl1, bne_self_eq_false, ha2, hskip, hloop, List.nil_append, List.length_map]


/-- The scan function with EMBEDDED_SCRIPT_START requested on an input that
starts with `<` runs the start recognizer. -/
theorem scan_script_start_eq (host : Host) (fuel : Nat) (s : Scanner) (lexer : TSLexer)
    (valid_symbols : TokenType → Bool) (tail : List Nat)
    (hrest : lexer.rest = 60 :: tail)
    (hv : valid_symbols EMBEDDED_SCRIPT_START = true) :
    tree_sitter_vim_external_scanner_scan host fuel s lexer valid_symbols
      = some (try_lex_script_start host s
          { lexer with result_symbol := EMBEDDED_SCRIPT_START }) := by
  have hl : lexer.lookahead = 60 := lookahead_cons lexer 60 tail hrest
  have hid : skip_space_tabs lexer = lexer := skip_space_tabs_id lexer (by rw [hl]; rfl)
  rw [scan_falls_to_script host fuel s lexer valid_symbols
    (by rw [hid, hl]; simp) (by rw [hid, hl]; simp) (by rw [hid, hl]; simp), hid]
  simp [scan_script_keyword_string, hv]

/-- The scan function with EMDEDDED_SCRIPT_END requested (and start not) on an
input that begins with the stored terminator `m`, when no earlier gate holds. -/
theorem scan_script_end_spec (host : Host) (fuel : Nat) (s : Scanner) (lexer : TSLexer)
    (valid_symbols : TokenType → Bool) (m rest2 : List Nat)
    (hlen : s.marker_len ≠ 0) (hterm : s.terminator = m)
    (hfirst : IS_SPACE_TABS (m.headD 0) = false) (hnl : m.headD 0 ≠ 10)
    (hm : ∀ c ∈ m, char_to_int host c = (c : Int))
    (hrest : lexer.rest = m ++ rest2) (hne : m ≠ [])
    (hv : valid_symbols EMDEDDED_SCRIPT_END = true)
    (hvs : valid_symbols EMBEDDED_SCRIPT_START = false)
    (hno : valid_symbols NO = true → m.head? ≠ some 110)
    (hinv : valid_symbols INV = true → m.head? ≠ some 105)
    (hbar : valid_symbols CMD_SEPARATOR = true → valid_symbols LINE_CONTINUATION = true →
      m.head? ≠ some 124) :
    tree_sitter_vim_external_scanner_scan host fuel s lexer valid_symbols
      = some (true, { s with marker_len := 0 },
          { rest := rest2, consumed := taken m ++ lexer.consumed, marked := lexer.marked,
            result_symbol := EMDEDDED_SCRIPT_END }) := by
  obtain ⟨c, cs, rfl⟩ : ∃ c cs, m = c :: cs := by
    cases m with
    | nil => exact absurd rfl hne
    | cons c cs => exact ⟨c, cs, rfl⟩
  have hl : lexer.lookahead = c := lookahead_cons lexer c (cs ++ rest2) hrest
  simp only [List.headD_cons] at hfirst hnl
  simp only [List.head?_cons, ne_eq, Option.some.injEq] at hno hinv hbar
  have hid : skip_space_tabs lexer = lexer := skip_space_tabs_id lexer (by rw [hl]; exact hfirst)
  rw [scan_falls_to_script host fuel s lexer valid_symbols
    (by rw [hid, hl]; exact fun h => hno h.1 h.2)
    (by rw [hid, hl]; exact fun h => hinv h.1 h.2)
    (by
      rw [hid, hl]
      rintro ⟨h1, h2, h3 | h3⟩
      · exact hnl h3
      · exact hbar h1 h2 h3), hid]
  simp only [scan_script_keyword_string, hvs, hv, Bool.false_eq_true, if_false, if_true, hlen,
    hterm, lex_script_end_spec host (c :: cs) lexer rest2 hrest hm]

/-! ### C4: embedded block start, then end -/

/-- C4 (as stated, refuted): a marker character above 255 is narrowed to a byte
when stored, so after a start on `<<Ł` (code unit 321) the terminator is the
byte 65 (`A`), not the marker, on hosts of either `char` signedness, and a later
end scan on `Ł` reports no token; where `char` is signed, the marker `é` (233)
is stored as written but the end scan on `é` reports no token either. -/
theorem C4_wide_marker_counterexample :
    (tree_sitter_vim_external_scanner_scan host_signed 0
        tree_sitter_vim_external_scanner_create (TSLexer.start [60, 60, 321, 10])
        (requested [EMBEDDED_SCRIPT_START])).map (fun r => (r.1, r.2.1.terminator))
      = some (true, [65])
    ∧ (tree_sitter_vim_external_scanner_scan host_unsigned 0
        tree_sitter_vim_external_scanner_create (TSLexer.start [60, 60, 321, 10])
        (requested [EMBEDDED_SCRIPT_START])).map (fun r => (r.1, r.2.1.terminator))
      = some (true, [65])
    ∧ (tree_sitter_vim_external_scanner_scan host_signed 0
        { script_marker := some [65], marker_len := 1 } (TSLexer.start [321])
        (requested [EMDEDDED_SCRIPT_END])).map (fun r => r.1) = some false
    ∧ (tree_sitter_vim_external_scanner_scan host_signed 0
        tree_sitter_vim_external_scanner_create (TSLexer.start [60, 60, 233, 10])
        (requested [EMBEDDED_SCRIPT_START])).map (fun r => (r.1, r.2.1.terminator))
      = some (true, [233])
    ∧ (tree_sitter_vim_external_scanner_scan host_signed 0
        { script_marker := some [233], marker_len := 1 } (TSLexer.start [233])
        (requested [EMDEDDED_SCRIPT_END])).map (fun r => r.1) = some false := by
  decide

/-- C4 (amended): let `m` be a marker of 1 to 255 characters, none a space, tab
or newline, each a non-zero code unit below 256, and below 128 where `char` is
signed. From a state whose `script_marker` is `NULL`, a scan with
EMBEDDED_SCRIPT_START requested on `<<`, spaces/tabs, `m` and a space, tab or
newline reports EMBEDDED_SCRIPT_START, stores exactly `m` and stops before the
delimiter. A later scan with EMDEDDED_SCRIPT_END requested, start not requested
and no earlier gate open at the first character of `m`, on an input beginning
with `m`, reports EMDEDDED_SCRIPT_END, consumes exactly the characters of `m`
and leaves terminator length 0. -/
theorem C4_block_start_then_end (host : Host) (fuel1 fuel2 : Nat) (s : Scanner)
    (lexer lexer2 : TSLexer) (valid1 valid2 : TokenType → Bool)
    (ws m rest1 rest2 : List Nat) (d : Nat)
    (hs : s.script_marker = none)
    (hm1 : 1 ≤ m.length) (hm2 : m.length ≤ 255)
    (hm : ∀ c ∈ m, c ≠ 32 ∧ c ≠ 9 ∧ c ≠ 10 ∧ 0 < c ∧ c < 256
      ∧ (host.char_signed = true → c < 128))
    (hws : ∀ c ∈ ws, IS_SPACE_TABS c = true)
    (hd : d = 32 ∨ d = 9 ∨ d = 10)
    (hrest : lexer.rest = 60 :: 60 :: (ws ++ (m ++ d :: rest1)))
    (hv1 : valid1 EMBEDDED_SCRIPT_START = true)
    (hrest2 : lexer2.rest = m ++ rest2)
    (hv2 : valid2 EMDEDDED_SCRIPT_END = true)
    (hv2s : valid2 EMBEDDED_SCRIPT_START = false)
    (hno : valid2 NO = true → m.head? ≠ some 110)
    (hinv : valid2 INV = true → m.head? ≠ some 105)
    (hbar : valid2 CMD_SEPARATOR = true → valid2 LINE_CONTINUATION = true →
      m.head? ≠ some 124) :
    ∃ s1 lexer1 s3 lexer3,
      tree_sitter_vim_external_scanner_scan host fuel1 s lexer valid1 = some (true, s1, lexer1)
      ∧ lexer1.result_symbol = EMBEDDED_SCRIPT_START
      ∧ s1.marker_len = m.length ∧ s1.terminator = m
      ∧ lexer1.rest = d :: rest1
      ∧ tree_sitter_vim_external_scanner_scan host fuel2 s1 lexer2 valid2
          = some (true, s3, lexer3)
      ∧ lexer3.result_symbol = EMDEDDED_SCRIPT_END
      ∧ lexer3.rest = rest2 ∧ lexer3.consumed = taken m ++ lexer2.consumed
      ∧ s3.marker_len = 0 ∧ s3.terminator = [] := by
  have hmap : m.map (fun c => c % 256) = m := by
    conv_rhs => rw [← List.map_id m]
    apply List.map_congr_left
    intro c hc
    exact Nat.mod_eq_of_lt (hm c hc).2.2.2.2.1
  have hcopy : strncpy m m.length = m :=
    strncpy_no_zero m (fun c hc => by have := (hm c hc).2.2.2.1; omega)
  have hmod : m.length % 256 = m.length := Nat.mod_eq_of_lt (by omega)
  have hmalloc : malloc host m.length m = some m := by
    have : m.length ≠ 0 := by omega
    simp [malloc, this]
  have hmsp : ∀ c ∈ m, IS_SPACE_TABS c = false ∧ c ≠ 10 := by
    intro c hc
    obtain ⟨h1, h2, h3, -⟩ := hm c hc
    exact ⟨by simp [IS_SPACE_TABS, h1, h2], h3⟩
  have hdsp : IS_SPACE_TABS d = true ∨ d = 10 := by
    rcases hd with h | h | h
    · exact Or.inl (by simp [IS_SPACE_TABS, h])
    · exact Or.inl (by simp [IS_SPACE_TABS, h])
    · exact Or.inr h
  have hne : m ≠ [] := by
    intro h
    simp [h] at hm1
  have hstart := try_lex_script_start_spec host s
    { lexer with result_symbol := EMBEDDED_SCRIPT_START } ws m rest1 d hs hm2 hmsp hws hdsp
    (Or.inl hne) hrest
  rw [hmap, hcopy, hmod, hmalloc] at hstart
  have hscan1 := scan_script_start_eq host fuel1 s lexer valid1 _ hrest hv1
  rw [hstart] at hscan1
  have hterm : ({ script_marker := some m, marker_len := m.length } : Scanner).terminator = m := by
    simp [Scanner.terminator]
  have hfirst : IS_SPACE_TABS (m.headD 0) = false ∧ m.headD 0 ≠ 10 := by
    cases m with
    | nil => exact absurd rfl hne
    | cons c cs => simpa using hmsp c (by simp)
  have hscan2 := scan_script_end_spec host fuel2 { script_marker := some m, marker_len := m.length }
    lexer2 valid2 m rest2 (by show m.length ≠ 0; omega) hterm hfirst.1 hfirst.2
    (fun c hc => char_to_int_small host c (hm c hc).2.2.2.2.2) hrest2 hne hv2 hv2s hno hinv hbar
  exact ⟨_, _, _, _, hscan1, rfl, rfl, hterm, rfl, hscan2, rfl, rfl, rfl, rfl,
    by simp [Scanner.terminator]⟩

/-- C4, witness: the input `<< EOF` and the later end scan on `EOF` of the spec. -/
theorem C4_block_start_then_end_witness :
    ∃ s1 lexer1 s3 lexer3,
      tree_sitter_vim_external_scanner_scan host_signed 0
          tree_sitter_vim_external_scanner_create (TSLexer.start (chars "<< EOF\nbody\nEOF"))
          (requested [EMBEDDED_SCRIPT_START]) = some (true, s1, lexer1)
      ∧ lexer1.result_symbol = EMBEDDED_SCRIPT_START
      ∧ s1.marker_len = (chars "EOF").length ∧ s1.terminator = chars "EOF"
      ∧ lexer1.rest = 10 :: chars "body\nEOF"
      ∧ tree_sitter_vim_external_scanner_scan host_signed 0 s1 (TSLexer.start (chars "EOF"))
          (requested [EMDEDDED_SCRIPT_END]) = some (true, s3, lexer3)
      ∧ lexer3.result_symbol = EMDEDDED_SCRIPT_END
      ∧ lexer3.rest = [] ∧ lexer3.consumed = taken (chars "EOF") ++ (TSLexer.start (chars "EOF")).consumed
      ∧ s3.marker_len = 0 ∧ s3.terminator = [] :=
  C4_block_start_then_end host_signed 0 0 tree_sitter_vim_external_scanner_create
    (TSLexer.start (chars "<< EOF\nbody\nEOF")) (TSLexer.start (chars "EOF"))
    (requested [EMBEDDED_SCRIPT_START]) (requested [EMDEDDED_SCRIPT_END])
    (chars " ") (chars "EOF") (chars "body\nEOF") [] 10
    rfl (by decide) (by decide) (by decide) (by decide) (by decide) rfl rfl rfl rfl rfl
    (by decide) (by decide) (by decide)

/-! ### C5, C6: the keyword recognizer -/

theorem try_lex_keyword_mandatory_spec (pre r : List Nat) (lexer : TSLexer)
    (hrest : lexer.rest = pre ++ r) :
    try_lex_keyword_mandatory lexer pre
      = (true, { rest := r, consumed := taken pre ++ lexer.consumed, marked := lexer.marked,
                 result_symbol := lexer.result_symbol }) := by
  induction pre generalizing lexer with
  | nil =>
    simp only [List.nil_append] at hrest
    simp [try_lex_keyword_mandatory, taken, ← hrest]
  | cons c cs ih =>
    have hl : lexer.lookahead = c := lookahead_cons lexer c (cs ++ r) hrest
    rw [try_lex_keyword_mandatory, hl]
    simp only [bne_self_eq_false, Bool.false_eq_true, if_false]
    rw [advance_cons lexer c (cs ++ r) false hrest, ih _ rfl]
    simp [taken]

/-- The optional loop moves over a matched part `p` of the suffix (ASCII letters). -/
theorem try_lex_keyword_optional_matched (host : Host) (p q r : List Nat) (lexer : TSLexer)
    (hp : ∀ c ∈ p, c < 128) (hrest : lexer.rest = p ++ r) :
    try_lex_keyword_optional host lexer (p ++ q)
      = try_lex_keyword_optional host
          { rest := r, consumed := taken p ++ lexer.consumed, marked := lexer.marked,
            result_symbol := lexer.result_symbol } q := by
  induction p generalizing lexer with
  | nil =>
    simp only [List.nil_append] at hrest
    simp [taken, ← hrest]
  | cons c cs ih =>
    have hl : lexer.lookahead = c := lookahead_cons lexer c (cs ++ r) hrest
    have hc : c < 128 := hp c (by simp)
    have hmod : c % 256 = c := Nat.mod_eq_of_lt (by omega)
    have hci : char_to_int host c = (c : Int) := char_to_int_small host c (fun _ => hc)
    rw [List.cons_append, try_lex_keyword_optional, hl, hmod, hci]
    simp only [bne_self_eq_false, Bool.false_eq_true, if_false]
    rw [advance_cons lexer c (cs ++ r) false hrest,
      ih _ (fun x hx => hp x (by simp [hx])) rfl]
    simp [taken]

/-- Keyword, short and full forms: after the mandatory part and `k` letters of
the suffix, a lookahead whose `char` value is not alphabetic ends the keyword
(any lookahead does once the whole suffix is matched). -/
theorem try_lex_keyword_accepts (host : Host) (pre suf r : List Nat) (k : Nat)
    (lexer : TSLexer) (hsuf : ∀ c ∈ suf, (65 ≤ c ∧ c ≤ 90) ∨ (97 ≤ c ∧ c ≤ 122))
    (hk : k ≤ suf.length) (hrest : lexer.rest = pre ++ (suf.take k ++ r))
    (hr : k < suf.length → host.iswalpha (char_to_int host (r.headD 0 % 256)) = false) :
    try_lex_keyword host lexer (pre, suf)
      = (true, { rest := r, consumed := taken (pre ++ suf.take k) ++ lexer.consumed,
                 marked := lexer.marked, result_symbol := lexer.result_symbol }) := by
  have h128 : ∀ c ∈ suf.take k, c < 128 := by
    intro c hc
    rcases hsuf c (List.mem_of_mem_take hc) with h | h <;> omega
  have hopt := try_lex_keyword_optional_matched host (suf.take k) (suf.drop k) r
    ({ rest := suf.take k ++ r, consumed := taken pre ++ lexer.consumed,
       marked := lexer.marked, result_symbol := lexer.result_symbol } : TSLexer) h128 rfl
  rw [List.take_append_drop] at hopt
  simp only [try_lex_keyword, try_lex_keyword_mandatory_spec pre _ lexer hrest, hopt]
  have hcons : taken (suf.take k) ++ (taken pre ++ lexer.consumed)
      = taken (pre ++ suf.take k) ++ lexer.consumed := by
    simp [taken]
  simp only [hcons]
  cases hdrop : suf.drop k with
  | nil => simp [try_lex_keyword_optional]
  | cons x xs =>
    have hklt : k < suf.length := by
      by_contra hge
      have : suf.drop k = [] := List.drop_eq_nil_of_le (by omega)
      rw [this] at hdrop
      cases hdrop
    have hx : x ∈ suf := List.mem_of_mem_drop (by rw [hdrop]; simp)
    have hal := hr hklt
    have hne : char_to_int host (r.headD 0 % 256) ≠ (x : Int) := by
      intro heq
      rw [heq, host.iswalpha_letter (x : Int) (by rcases hsuf x hx with h | h <;> omega)] at hal
      cases hal
    have hb : (char_to_int host (r.headD 0 % 256) != (x : Int)) = true := by simpa using hne
    simp only [try_lex_keyword_optional, TSLexer.lookahead, hb, if_true, hal,
      Bool.false_eq_true, if_false]

/-- Keyword rejection: after the mandatory part and `k` letters of the suffix, a
lookahead whose `char` value is alphabetic and is not the next suffix letter
makes the recognizer fail. -/
theorem try_lex_keyword_rejects (host : Host) (pre suf r : List Nat) (k x : Nat)
    (lexer : TSLexer) (hsuf : ∀ c ∈ suf, (65 ≤ c ∧ c ≤ 90) ∨ (97 ≤ c ∧ c ≤ 122))
    (hx : suf[k]? = some x) (hrest : lexer.rest = pre ++ (suf.take k ++ r))
    (hne : char_to_int host (r.headD 0 % 256) ≠ (x : Int))
    (hal : host.iswalpha (char_to_int host (r.headD 0 % 256)) = true) :
    try_lex_keyword host lexer (pre, suf)
      = (false, { rest := r, consumed := taken (pre ++ suf.take k) ++ lexer.consumed,
                  marked := lexer.marked, result_symbol := lexer.result_symbol }) := by
  have h128 : ∀ c ∈ suf.take k, c < 128 := by
    intro c hc
    rcases hsuf c (List.mem_of_mem_take hc) with h | h <;> omega
  have hklt : k < suf.length := by
    by_contra hge
    rw [List.getElem?_eq_none (by omega)] at hx
    cases hx
  have hdrop : suf.drop k = x :: suf.drop (k + 1) := by
    rw [List.drop_eq_getElem_cons hklt]
    congr 1
    rw [List.getElem?_eq_getElem hklt] at hx
    exact Option.some.inj hx
  have hopt := try_lex_keyword_optional_matched host (suf.take k) (suf.drop k) r
    ({ rest := suf.take k ++ r, consumed := taken pre ++ lexer.consumed,
       marked := lexer.marked, result_symbol := lexer.result_symbol } : TSLexer) h128 rfl
  rw [List.take_append_drop] at hopt
  simp only [try_lex_keyword, try_lex_keyword_mandatory_spec pre _ lexer hrest, hopt]
  have hcons : taken (suf.take k) ++ (taken pre ++ lexer.consumed)
      = taken (pre ++ suf.take k) ++ lexer.consumed := by
    simp [taken]
  simp only [hcons, hdrop]
  have hb : (char_to_int host (r.headD 0 % 256) != (x : Int)) = true := by simpa using hne
  simp only [try_lex_keyword_optional, TSLexer.lookahead, hb, if_true, hal]

/-- C5 (the code at the failing input): on `endiffoo` the keyword recognizer for
`end` + `if` matches on every host, leaving `foo` unread, because nothing is
checked once the whole suffix is matched, and a scan with ENDIF requested
reports ENDIF; on `endless` the recognizer does fail. -/
theorem C5_full_form_before_letter_is_accepted (host : Host) :
    try_lex_keyword host (TSLexer.start (chars "endiffoo")) (chars "end", chars "if")
      = (true, { rest := chars "foo", consumed := taken (chars "endif"), marked := none,
                 result_symbol := NO })
    ∧ tree_sitter_vim_external_scanner_scan host_signed 0
        tree_sitter_vim_external_scanner_create (TSLexer.start (chars "endiffoo"))
        (requested [ENDIF])
      = some (true, tree_sitter_vim_external_scanner_create,
          { rest := chars "foo", consumed := taken (chars "endif"), marked := none,
            result_symbol := ENDIF })
    ∧ try_lex_keyword host (TSLexer.start (chars "endless")) (chars "end", chars "if")
      = (false, { rest := chars "less", consumed := taken (chars "end"), marked := none,
                  result_symbol := NO }) := by
  refine ⟨?_, by decide, ?_⟩
  · exact try_lex_keyword_accepts host (chars "end") (chars "if") (chars "foo") 2
      (TSLexer.start (chars "endiffoo")) (by decide) (by decide) rfl
      (fun h => absurd h (by decide))
  · exact try_lex_keyword_rejects host (chars "end") (chars "if") (chars "less") 0 105
      (TSLexer.start (chars "endless")) (by decide) rfl rfl
      (by rw [char_to_int_small host _ (fun _ => by decide)]; decide)
      (by
        rw [char_to_int_small host _ (fun _ => by decide)]
        exact host.iswalpha_letter _ (by decide))

/-- C6 (the code at the failing input): the lookahead is narrowed to a `char`
before it is compared with the suffix, so the non-alphabetic code unit 9833
(U+2669, low byte 105 = `i`) after `end` is taken for the `i` of `if`: on
`end`, U+2669, `x` the recognizer for `end` + `if` fails, and on `end`, U+2669,
space it matches having consumed four characters, not the three of `end`. -/
theorem C6_wide_lookahead_taken_for_suffix_letter :
    host_signed.iswalpha 9833 = false
    ∧ try_lex_keyword host_signed (TSLexer.start (chars "end" ++ [9833] ++ chars "x"))
        (chars "end", chars "if")
      = (false, { rest := chars "x", consumed := taken (chars "end" ++ [9833]), marked := none,
                  result_symbol := NO })
    ∧ try_lex_keyword host_unsigned (TSLexer.start (chars "end" ++ [9833] ++ chars "x"))
        (chars "end", chars "if")
      = (false, { rest := chars "x", consumed := taken (chars "end" ++ [9833]), marked := none,
                  result_symbol := NO })
    ∧ try_lex_keyword host_signed (TSLexer.start (chars "end" ++ [9833] ++ chars " "))
        (chars "end", chars "if")
      = (true, { rest := chars " ", consumed := taken (chars "end" ++ [9833]), marked := none,
                 result_symbol := NO }) := by
  decide

/-! ### C7: the string / comment recognizer -/

/-- The loop of `lex_string` moves over a body without the quote and without a
newline and stops at the character `e` after it, a quote or a newline. -/
theorem lex_string_loop_spec (q : Nat) (fuel : Nat) (body rest : List Nat) (e : Nat)
    (lexer : TSLexer) (hfuel : body.length < fuel)
    (hbody : ∀ c ∈ body, c ≠ q ∧ c ≠ 10) (he : e = q ∨ e = 10)
    (hrest : lexer.rest = body ++ e :: rest) :
    lex_string_loop q fuel lexer
      = some { rest := e :: rest, consumed := taken body ++ lexer.consumed,
               marked := lexer.marked, result_symbol := lexer.result_symbol } := by
  induction body generalizing fuel lexer with
  | nil =>
    simp only [List.nil_append] at hrest
    have hl : lexer.lookahead = e := lookahead_cons lexer e rest hrest
    cases fuel with
    | zero => simp at hfuel
    | succ fuel =>
      rw [lex_string_loop, hl]
      have : (e != q && e != 10) = false := by
        rcases he with h | h <;> simp [h]
      rw [this]
      simp [taken, ← hrest]
  | cons c cs ih =>
    have hl : lexer.lookahead = c := lookahead_cons lexer c (cs ++ e :: rest) hrest
    have hc := hbody c (by simp)
    cases fuel with
    | zero => simp at hfuel
    | succ fuel =>
      rw [lex_string_loop, hl]
      have : (c != q && c != 10) = true := by simp [hc.1, hc.2]
      rw [this, if_pos rfl, advance_cons lexer c (cs ++ e :: rest) false hrest]
      rw [ih fuel _ (by simpa using hfuel) (fun x hx => hbody x (by simp [hx])) rfl]
      simp [taken]

/-- C7: on an input that starts with a quote `q` (`'` or `"`), the string/comment
recognizer, given fuel for the body, reports STRING and has consumed through
the closing quote when another `q` comes before the first newline; when a
newline comes first it returns with the cursor before the newline, reporting
COMMENT if `q` is the double quote and no token (the returned `bool` is false)
if `q` is the single quote. On
an input that does not start with a quote it reports no token and leaves the
cursor as it was. -/
theorem C7_string_comment_outcomes (fuel : Nat) (lexer : TSLexer) :
    (∀ q body rest, (q = 39 ∨ q = 34) → (∀ c ∈ body, c ≠ q ∧ c ≠ 10) →
      lexer.rest = q :: (body ++ q :: rest) → body.length < fuel →
      lex_string fuel lexer
        = some (true, { rest := rest, consumed := taken (q :: (body ++ [q])) ++ lexer.consumed,
                        marked := lexer.marked, result_symbol := STRING }))
    ∧ (∀ q body rest, (q = 39 ∨ q = 34) → (∀ c ∈ body, c ≠ q ∧ c ≠ 10) →
      lexer.rest = q :: (body ++ 10 :: rest) → body.length < fuel →
      lex_string fuel lexer
        = some (q == 34, { rest := 10 :: rest, consumed := taken (q :: body) ++ lexer.consumed,
                           marked := lexer.marked, result_symbol := COMMENT }))
    ∧ (lexer.lookahead ≠ 39 → lexer.lookahead ≠ 34 →
      lex_string fuel lexer = some (false, lexer)) := by
  refine ⟨?_, ?_, ?_⟩
  · intro q body rest hq hbody hrest hfuel
    have hl : lexer.lookahead = q := lookahead_cons lexer q _ hrest
    have hstart : (q != 39 && q != 34) = false := by
      rcases hq with h | h <;> simp [h]
    have hloop := lex_string_loop_spec q fuel body rest q
      ({ rest := body ++ q :: rest, consumed := (q, false) :: lexer.consumed,
         marked := lexer.marked, result_symbol := lexer.result_symbol } : TSLexer)
      hfuel hbody (Or.inl rfl) rfl
    simp only [lex_string, hl, hstart, Bool.false_eq_true, if_false,
      advance_cons lexer q _ false hrest, hloop]
    simp [TSLexer.lookahead, advance, taken]
  · intro q body rest hq hbody hrest hfuel
    have hl : lexer.lookahead = q := lookahead_cons lexer q _ hrest
    have hstart : (q != 39 && q != 34) = false := by
      rcases hq with h | h <;> simp [h]
    have hloop := lex_string_loop_spec q fuel body rest 10
      ({ rest := body ++ 10 :: rest, consumed := (q, false) :: lexer.consumed,
         marked := lexer.marked, result_symbol := lexer.result_symbol } : TSLexer)
      hfuel hbody (Or.inr rfl) rfl
    have hq10 : ¬ (10 = q) := by
      rcases hq with h | h <;> simp [h]
    simp only [lex_string, hl, hstart, Bool.false_eq_true, if_false,
      advance_cons lexer q _ false hrest, hloop]
    simp [TSLexer.lookahead, taken, hq10]
  · intro h1 h2
    simp [lex_string, h1, h2]

/-- C7, witness: `'unterminated` before a newline gives no token, the same with a
double quote gives COMMENT, and `'abc'` gives STRING. -/
theorem C7_string_comment_outcomes_witness :
    lex_string 20 (TSLexer.start (chars "'unterminated\n"))
        = some (39 == 34,
            { rest := 10 :: [],
              consumed := taken (39 :: chars "unterminated")
                ++ (TSLexer.start (chars "'unterminated\n")).consumed,
              marked := (TSLexer.start (chars "'unterminated\n")).marked,
              result_symbol := COMMENT })
    ∧ (lex_string 20 (TSLexer.start (chars "\"unterminated\n"))).map
        (fun r => (r.1, r.2.result_symbol)) = some (true, COMMENT)
    ∧ (lex_string 20 (TSLexer.start (chars "'abc'"))).map
        (fun r => (r.1, r.2.result_symbol, r.2.rest)) = some (true, STRING, []) :=
  ⟨(C7_string_comment_outcomes 20 (TSLexer.start (chars "'unterminated\n"))).2.1 39
      (chars "unterminated") [] (by decide) (by decide) rfl (by decide),
    by decide, by decide⟩

/-! ### C8, C9: refusal of a start, and the dispatch order -/

/-- A state that holds a non-empty terminator has a non-null `script_marker`. -/
theorem script_marker_isSome_of_active (s : Scanner) (hwf : s.WF) (hlen : 0 < s.marker_len) :
    s.script_marker.isSome = true := by
  cases hs : s.script_marker with
  | none =>
    have := hwf.2
    rw [hs] at this
    simp at this
    omega
  | some b => rfl

/-- The start recognizer fails at once, touching neither cursor nor state, whenever
`script_marker` is not `NULL`. -/
theorem try_lex_script_start_refused (host : Host) (s : Scanner) (lexer : TSLexer)
    (h : s.script_marker.isSome = true) :
    try_lex_script_start host s lexer = (false, s, lexer) := by
  simp [try_lex_script_start, h]

/-- C8: for every state that holds an active (non-empty) terminator and every
cursor, the embedded-block start recognizer reports no token, consumes no
character and leaves the state, terminator bytes and length, unchanged. -/
theorem C8_start_refused_while_active (host : Host) (s : Scanner) (lexer : TSLexer)
    (hwf : s.WF) (hlen : 0 < s.marker_len) :
    try_lex_script_start host s lexer = (false, s, lexer) :=
  try_lex_script_start_refused host s lexer (script_marker_isSome_of_active s hwf hlen)

/-- C8, witness: with the terminator `EOF` active, a start on `<<X` is refused. -/
theorem C8_start_refused_while_active_witness :
    try_lex_script_start host_signed { script_marker := some (chars "EOF"), marker_len := 3 }
        (TSLexer.start (chars "<<X\n"))
      = (false, { script_marker := some (chars "EOF"), marker_len := 3 },
          TSLexer.start (chars "<<X\n")) :=
  C8_start_refused_while_active host_signed { script_marker := some (chars "EOF"), marker_len := 3 }
    (TSLexer.start (chars "<<X\n")) (by decide) (by decide)

/-- C9 (as stated, refuted): with EMBEDDED_SCRIPT_START and STRING requested the
scan of `'abc'` reports no token and leaves the cursor at the quote, and with
EMBEDDED_SCRIPT_START and EMDEDDED_SCRIPT_END requested, terminator `EOF` active
and input `EOF`, the scan reports no token: the failed start recognizer is not
followed by any later recognizer. -/
theorem C9_no_fall_through_counterexample :
    tree_sitter_vim_external_scanner_scan host_signed 10
        tree_sitter_vim_external_scanner_create (TSLexer.start (chars "'abc'"))
        (requested [EMBEDDED_SCRIPT_START, STRING])
      = some (false, tree_sitter_vim_external_scanner_create,
          { TSLexer.start (chars "'abc'") with result_symbol := EMBEDDED_SCRIPT_START })
    ∧ tree_sitter_vim_external_scanner_scan host_signed 10
        { script_marker := some (chars "EOF"), marker_len := 3 } (TSLexer.start (chars "EOF"))
        (requested [EMBEDDED_SCRIPT_START, EMDEDDED_SCRIPT_END])
      = some (false, { script_marker := some (chars "EOF"), marker_len := 3 },
          { TSLexer.start (chars "EOF") with result_symbol := EMBEDDED_SCRIPT_START }) := by
  decide

theorem scan_of_no_early_gate (host : Host) (fuel : Nat) (s : Scanner) (lexer : TSLexer)
    (valid_symbols : TokenType → Bool)
    (h : early_gate valid_symbols (skip_space_tabs lexer).lookahead = false) :
    tree_sitter_vim_external_scanner_scan host fuel s lexer valid_symbols
      = scan_script_keyword_string host fuel s (skip_space_tabs lexer) valid_symbols := by
  simp only [early_gate, Bool.or_eq_false_iff, Bool.and_eq_false_iff, beq_eq_false_iff_ne,
    ne_eq] at h
  obtain ⟨⟨h1, h2⟩, h3⟩ := h
  apply scan_falls_to_script
  · rintro ⟨a, b⟩
    rcases h1 with h | h
    · rw [a] at h; cases h
    · exact h b
  · rintro ⟨a, b⟩
    rcases h2 with h | h
    · rw [a] at h; cases h
    · exact h b
  · rintro ⟨a, b, c⟩
    rcases h3 with (h | h) | h
    · rw [a] at h; cases h
    · rw [b] at h; cases h
    · rcases c with c | c
      · exact h.1 c
      · exact h.2 c

/-- C9 (amended): the dispatcher commits to the first recognizer whose gate is
open and returns its outcome, failure included. With NO requested and lookahead
`n` (after the leading skip) the outcome is that of the `no` recognizer; else
with INV requested and lookahead `i`, that of the `inv` recognizer; when no
early gate is open and EMBEDDED_SCRIPT_START is requested, that of the start
recognizer, whatever else is requested; when start is not requested and
EMDEDDED_SCRIPT_END is, that of the end recognizer. Only when neither block kind
is requested are the requested keyword recognizers tried in order, and only
after all of them fail is the string/comment recognizer tried (if STRING or
COMMENT is requested), from the cursor the keyword attempts left. -/
theorem C9_dispatcher_commits_to_first_open_gate (host : Host) (fuel : Nat) (s : Scanner)
    (lexer : TSLexer) (valid_symbols : TokenType → Bool) :
    (valid_symbols NO = true → (skip_space_tabs lexer).lookahead = 110 →
      tree_sitter_vim_external_scanner_scan host fuel s lexer valid_symbols
        = some (( check_prefix (skip_space_tabs lexer) (chars "no") NO).1, s,
            ( check_prefix (skip_space_tabs lexer) (chars "no") NO).2))
    ∧ (¬ (valid_symbols NO = true ∧ (skip_space_tabs lexer).lookahead = 110) →
      valid_symbols INV = true → (skip_space_tabs lexer).lookahead = 105 →
      tree_sitter_vim_external_scanner_scan host fuel s lexer valid_symbols
        = some (( check_prefix (skip_space_tabs lexer) (chars "inv") INV).1, s,
            ( check_prefix (skip_space_tabs lexer) (chars "inv") INV).2))
    ∧ (early_gate valid_symbols (skip_space_tabs lexer).lookahead = false →
      valid_symbols EMBEDDED_SCRIPT_START = true →
      tree_sitter_vim_external_scanner_scan host fuel s lexer valid_symbols
        = some (try_lex_script_start host s
            { skip_space_tabs lexer with result_symbol := EMBEDDED_SCRIPT_START }))
    ∧ (early_gate valid_symbols (skip_space_tabs lexer).lookahead = false →
      valid_symbols EMBEDDED_SCRIPT_START = false →
      valid_symbols EMDEDDED_SCRIPT_END = true →
      tree_sitter_vim_external_scanner_scan host fuel s lexer valid_symbols
        = if s.marker_len = 0 then some (false, s, skip_space_tabs lexer)
          else if (lex_script_end host (skip_space_tabs lexer) s.terminator).1 = true then
            some (true, { s with marker_len := 0 },
              { (lex_script_end host (skip_space_tabs lexer) s.terminator).2 with
                result_symbol := EMDEDDED_SCRIPT_END })
          else some (false, s, (lex_script_end host (skip_space_tabs lexer) s.terminator).2))
    ∧ (early_gate valid_symbols (skip_space_tabs lexer).lookahead = false →
      valid_symbols EMBEDDED_SCRIPT_START = false →
      valid_symbols EMDEDDED_SCRIPT_END = false →
      tree_sitter_vim_external_scanner_scan host fuel s lexer valid_symbols
        = if (scan_keywords host valid_symbols (skip_space_tabs lexer) keywords).1 = true then
            some (true, s, (scan_keywords host valid_symbols (skip_space_tabs lexer) keywords).2)
          else if (valid_symbols STRING || valid_symbols COMMENT) = true then
            (lex_string fuel
              (scan_keywords host valid_symbols (skip_space_tabs lexer) keywords).2).map
              (fun r => (r.1, s, r.2))
          else
            some (false, s,
              (scan_keywords host valid_symbols (skip_space_tabs lexer) keywords).2)) := by
  refine ⟨?_, ?_, ?_, ?_, ?_⟩
  · intro hv hl
    simp [tree_sitter_vim_external_scanner_scan, hv, hl]
  · intro hno hv hl
    have h1 : (valid_symbols NO && (skip_space_tabs lexer).lookahead == 110) = false := by
      by_contra hc
      simp only [Bool.not_eq_false, Bool.and_eq_true, beq_iff_eq] at hc
      exact hno hc
    simp only [tree_sitter_vim_external_scanner_scan, h1, Bool.false_eq_true, if_false]
    simp [hv, hl]
  · intro hg hv
    rw [scan_of_no_early_gate host fuel s lexer valid_symbols hg]
    simp [scan_script_keyword_string, hv]
  · intro hg hvs hv
    rw [scan_of_no_early_gate host fuel s lexer valid_symbols hg]
    simp only [scan_script_keyword_string, hvs, hv, Bool.false_eq_true, if_false, if_true]
    by_cases h0 : s.marker_len = 0
    · simp [h0]
    · simp only [h0, if_false]
      rcases hr : lex_script_end host (skip_space_tabs lexer) s.terminator with ⟨b, l⟩
      cases b <;> simp
  · intro hg hvs hv
    rw [scan_of_no_early_gate host fuel s lexer valid_symbols hg]
    simp only [scan_script_keyword_string, hvs, hv, Bool.false_eq_true, if_false]
    rcases hr : scan_keywords host valid_symbols (skip_space_tabs lexer) keywords with ⟨b, l⟩
    cases b
    · simp only [Bool.false_eq_true, if_false]
      by_cases hsc : (valid_symbols STRING || valid_symbols COMMENT) = true
      · simp only [hsc, if_true]
        cases lex_string fuel l with
        | none => rfl
        | some r => rfl
      · simp only [hsc, if_false]
        simp
    · simp

/-- C9, witness: with EMBEDDED_SCRIPT_START and STRING requested, the scan of
`'abc'` is the outcome of the start recognizer (a failure). -/
theorem C9_dispatcher_commits_to_first_open_gate_witness :
    tree_sitter_vim_external_scanner_scan host_signed 10
        tree_sitter_vim_external_scanner_create (TSLexer.start (chars "'abc'"))
        (requested [EMBEDDED_SCRIPT_START, STRING])
      = some (try_lex_script_start host_signed tree_sitter_vim_external_scanner_create
          { skip_space_tabs (TSLexer.start (chars "'abc'")) with
            result_symbol := EMBEDDED_SCRIPT_START }) :=
  (C9_dispatcher_commits_to_first_open_gate host_signed 10
    tree_sitter_vim_external_scanner_create (TSLexer.start (chars "'abc'"))
    (requested [EMBEDDED_SCRIPT_START, STRING])).2.2.1 (by decide) (by decide)

/-- C10 (the code at the failing input): from the freshly created state, a start
on `<<EOF` and an end on `EOF` both succeed and leave terminator length 0, but
`script_marker` still points to the freed buffer; the next start, on `<<X`
before a newline, is refused because `script_marker` is not `NULL`, on hosts of
either kind. -/
theorem C10_start_after_end_is_refused :
    (tree_sitter_vim_external_scanner_scan host_signed 0
        tree_sitter_vim_external_scanner_create (TSLexer.start (chars "<<EOF\n"))
        (requested [EMBEDDED_SCRIPT_START])).map (fun r => (r.1, r.2.1))
      = some (true, { script_marker := some (chars "EOF"), marker_len := 3 })
    ∧ (tree_sitter_vim_external_scanner_scan host_signed 0
        { script_marker := some (chars "EOF"), marker_len := 3 } (TSLexer.start (chars "EOF"))
        (requested [EMDEDDED_SCRIPT_END])).map (fun r => (r.1, r.2.1))
      = some (true, { script_marker := some (chars "EOF"), marker_len := 0 })
    ∧ Scanner.content { script_marker := some (chars "EOF"), marker_len := 0 } = (0, [])
    ∧ tree_sitter_vim_external_scanner_scan host_signed 0
        { script_marker := some (chars "EOF"), marker_len := 0 }
        (TSLexer.start (chars "<<X\n")) (requested [EMBEDDED_SCRIPT_START])
      = some (false, { script_marker := some (chars "EOF"), marker_len := 0 },
          { TSLexer.start (chars "<<X\n") with result_symbol := EMBEDDED_SCRIPT_START })
    ∧ (tree_sitter_vim_external_scanner_scan host_unsigned 0
        tree_sitter_vim_external_scanner_create (TSLexer.start (chars "<<EOF\n"))
        (requested [EMBEDDED_SCRIPT_START])).map (fun r => (r.1, r.2.1))
      = some (true, { script_marker := some (chars "EOF"), marker_len := 3 })
    ∧ (tree_sitter_vim_external_scanner_scan host_unsigned 0
        { script_marker := some (chars "EOF"), marker_len := 3 } (TSLexer.start (chars "EOF"))
        (requested [EMDEDDED_SCRIPT_END])).map (fun r => (r.1, r.2.1))
      = some (true, { script_marker := some (chars "EOF"), marker_len := 0 })
    ∧ tree_sitter_vim_external_scanner_scan host_unsigned 0
        { script_marker := some (chars "EOF"), marker_len := 0 }
        (TSLexer.start (chars "<<X\n")) (requested [EMBEDDED_SCRIPT_START])
      = some (false, { script_marker := some (chars "EOF"), marker_len := 0 },
          { TSLexer.start (chars "<<X\n") with result_symbol := EMBEDDED_SCRIPT_START }) := by
  decide

/-! ### The invariant of the scanner states -/

theorem zero_closed_replicate (k : Nat) : zero_closed (List.replicate k 0) = true := by
  induction k with
  | zero => rfl
  | succ k ih =>
    simp only [List.replicate_succ, zero_closed, ih, Bool.and_true, Bool.or_eq_true,
      List.all_eq_true]
    right
    intro x hx
    simp [(List.mem_replicate.mp hx).2]

theorem zero_closed_strncpy (src : List Nat) (n : Nat) : zero_closed (strncpy src n) = true := by
  induction n generalizing src with
  | zero => cases src <;> rfl
  | succ n ih =>
    cases src with
    | nil => exact zero_closed_replicate (n + 1)
    | cons c cs =>
      by_cases hc : c = 0
      · simp only [strncpy, hc, if_true]
        exact zero_closed_replicate (n + 1)
      · simp [strncpy, hc, zero_closed, ih cs]

theorem script_marker_loop_length (n : Nat) (lexer : TSLexer) (acc : List Nat)
    (h : acc.length ≤ 255) : (script_marker_loop n lexer acc).2.length ≤ 255 := by
  induction n generalizing lexer acc with
  | zero => simpa [script_marker_loop] using h
  | succ n ih =>
    rw [script_marker_loop]
    split
    · rename_i hc
      simp only [Bool.and_eq_true, decide_eq_true_eq] at hc
      exact ih _ _ (by simp; omega)
    · exact h

/-- The invariant of the states the scanner holds: the length fits a byte, the
buffer holds the terminator, and no non-zero byte follows a zero byte. -/
theorem inv_create :
    tree_sitter_vim_external_scanner_create.WF
      ∧ zero_closed tree_sitter_vim_external_scanner_create.terminator = true := by
  decide

theorem inv_deserialize (s s1 : Scanner) (buffer : List Nat)
    (h : s.WF ∧ zero_closed s.terminator = true)
    (hd : tree_sitter_vim_external_scanner_deserialize s buffer = some s1) :
    s1.WF ∧ zero_closed s1.terminator = true := by
  unfold tree_sitter_vim_external_scanner_deserialize at hd
  by_cases h0 : buffer.length = 0
  · rw [if_pos h0] at hd
    cases hd
    exact h
  · rw [if_neg h0] at hd
    simp only at hd
    by_cases h1 : buffer.headD 0 % 256 + 1 ≠ buffer.length
    · rw [if_pos h1] at hd
      cases hd
    · rw [if_neg h1] at hd
      have hlt : buffer.headD 0 % 256 ≤ 255 := by
        have := Nat.mod_lt (buffer.headD 0) (show 0 < 256 by decide)
        omega
      by_cases h2 : 0 < buffer.headD 0 % 256
      · rw [if_pos h2] at hd
        cases hd
        refine ⟨⟨hlt, ?_⟩, ?_⟩
        · simp [strncpy_length]
        · simp only [Scanner.terminator, Option.getD_some]
          rw [List.take_of_length_le (by rw [strncpy_length])]
          exact zero_closed_strncpy _ _
      · rw [if_neg h2] at hd
        cases hd
        have hz : buffer.headD 0 % 256 = 0 := by omega
        refine ⟨⟨?_, ?_⟩, ?_⟩
        · show buffer.headD 0 % 256 ≤ 255
          omega
        · show buffer.headD 0 % 256 ≤ (s.script_marker.getD []).length
          omega
        · show zero_closed (List.take (buffer.headD 0 % 256) (s.script_marker.getD [])) = true
          rw [hz]
          rfl

theorem inv_try_lex_script_start (host : Host) (s : Scanner) (lexer : TSLexer)
    (h : s.WF ∧ zero_closed s.terminator = true) :
    (try_lex_script_start host s lexer).2.1.WF
      ∧ zero_closed (try_lex_script_start host s lexer).2.1.terminator = true := by
  unfold try_lex_script_start
  split
  · exact h
  · split
    · exact h
    · simp only
      split
      · exact h
      · have hlen := script_marker_loop_length 255
          (skip_space_tabs (advance (advance lexer false) false)) [] (by simp)
        generalize (script_marker_loop 255
          (skip_space_tabs (advance (advance lexer false) false)) []).2 = marker at hlen
        have hmod : marker.length % 256 = marker.length := Nat.mod_eq_of_lt (by omega)
        simp only [hmod]
        refine ⟨⟨hlen, ?_⟩, ?_⟩
        · unfold malloc
          split
          · rename_i hz
            simp [hz.1]
          · simp [strncpy_length]
        · simp only [Scanner.terminator]
          unfold malloc
          split
          · simp [zero_closed]
          · simp only [Option.getD_some]
            rw [List.take_of_length_le (by rw [strncpy_length])]
            exact zero_closed_strncpy _ _

theorem inv_scan (host : Host) (fuel : Nat) (s : Scanner) (lexer : TSLexer)
    (valid_symbols : TokenType → Bool) (r : Bool × Scanner × TSLexer)
    (h : s.WF ∧ zero_closed s.terminator = true)
    (hr : tree_sitter_vim_external_scanner_scan host fuel s lexer valid_symbols = some r) :
    r.2.1.WF ∧ zero_closed r.2.1.terminator = true := by
  have hclear : ({ s with marker_len := 0 } : Scanner).WF
      ∧ zero_closed ({ s with marker_len := 0 } : Scanner).terminator = true := by
    refine ⟨⟨by simp, by simp⟩, ?_⟩
    simp [Scanner.terminator, zero_closed]
  unfold tree_sitter_vim_external_scanner_scan at hr
  simp only at hr
  repeat' split at hr
  all_goals first
    | (cases hr; exact h)
    | (unfold scan_script_keyword_string at hr
       repeat' split at hr
       all_goals first
         | (cases hr; exact h)
         | (cases hr; exact hclear)
         | (cases hr; exact inv_try_lex_script_start host s _ h)
         | cases hr)

/-! ### The bounded loops are the loops of the code -/

/-- The bounded loop of `skip_space_tabs` is the `while` loop of the C code: it
advances while the lookahead is a space or a tab. -/
theorem skip_space_tabs_while (lexer : TSLexer) :
    skip_space_tabs lexer
      = if IS_SPACE_TABS lexer.lookahead then skip_space_tabs (advance lexer true)
        else lexer := by
  obtain ⟨ws, r, hsplit, hws, hr⟩ := split_space_tabs lexer.rest
  cases ws with
  | nil =>
    simp only [List.nil_append] at hsplit
    have hl : IS_SPACE_TABS lexer.lookahead = false := by
      simpa [TSLexer.lookahead, hsplit] using hr
    rw [skip_space_tabs_id lexer hl, hl]
    simp
  | cons w ws =>
    have hl : lexer.lookahead = w := lookahead_cons lexer w (ws ++ r) hsplit
    have hw : IS_SPACE_TABS w = true := hws w (by simp)
    rw [hl, if_pos hw, skip_space_tabs_spec (w :: ws) r lexer hsplit hws hr,
      advance_cons lexer w (ws ++ r) true hsplit,
      skip_space_tabs_spec ws r _ rfl (fun c hc => hws c (by simp [hc])) hr]
    simp [skipped]

/-- The bounded marker loop of `try_lex_script_start` ends where the `while` loop
of the C code ends: at its result the loop condition is false. -/
theorem script_marker_loop_exit (n : Nat) (lexer : TSLexer) (acc : List Nat)
    (h : 255 ≤ n + acc.length) :
    (!IS_SPACE_TABS (script_marker_loop n lexer acc).1.lookahead
      && (script_marker_loop n lexer acc).1.lookahead != 10
      && decide ((script_marker_loop n lexer acc).2.length < 255)) = false := by
  induction n generalizing lexer acc with
  | zero =>
    simp only [script_marker_loop]
    have : ¬ acc.length < 255 := by omega
    simp [this]
  | succ n ih =>
    rw [script_marker_loop]
    split
    · exact ih _ _ (by simp; omega)
    · rename_i hc
      simpa using hc

/-! ### C11: termination -/

/-- At the end of the input the loop of `lex_string` never ends: the lookahead
stays `0`, which is neither the quote nor a newline. -/
theorem lex_string_loop_diverges_at_end (q : Nat) (fuel : Nat) (lexer : TSLexer)
    (hq : q ≠ 0) (hrest : lexer.rest = []) :
    lex_string_loop q fuel lexer = none := by
  induction fuel with
  | zero => rfl
  | succ fuel ih =>
    have hl : lexer.lookahead = 0 := by simp [TSLexer.lookahead, hrest]
    have ha : advance lexer false = lexer := by simp [advance, hrest]
    have hc : ((0 : Nat) != q && (0 : Nat) != 10) = true := by
      have : ¬ (0 = q) := fun h => hq h.symm
      simp [this]
    rw [lex_string_loop, hl, hc, if_pos rfl, ha, ih]

/-- On a body without the quote and without a newline that runs to the end of
the input, the loop of `lex_string` never ends. -/
theorem lex_string_loop_diverges (q : Nat) (fuel : Nat) (body : List Nat) (lexer : TSLexer)
    (hq : q ≠ 0) (hbody : ∀ c ∈ body, c ≠ q ∧ c ≠ 10) (hrest : lexer.rest = body) :
    lex_string_loop q fuel lexer = none := by
  induction body generalizing fuel lexer with
  | nil => exact lex_string_loop_diverges_at_end q fuel lexer hq hrest
  | cons c cs ih =>
    cases fuel with
    | zero => rfl
    | succ fuel =>
      have hl : lexer.lookahead = c := lookahead_cons lexer c cs hrest
      have hc := hbody c (by simp)
      have hcond : (c != q && c != 10) = true := by simp [hc.1, hc.2]
      rw [lex_string_loop, hl, hcond, if_pos rfl, advance_cons lexer c cs false hrest]
      exact ih fuel _ (fun x hx => hbody x (by simp [hx])) rfl

/-- C11 (the code at the failing input): on the input `"abc` that ends inside the
quoted string, with STRING requested or with COMMENT requested, the scan does
not return, whatever number of loop iterations it is given, on every host and
from every state. -/
theorem C11_unterminated_quote_at_end_never_returns (host : Host) (fuel : Nat) (s : Scanner) :
    tree_sitter_vim_external_scanner_scan host fuel s (TSLexer.start (chars "\"abc"))
        (requested [STRING]) = none
    ∧ tree_sitter_vim_external_scanner_scan host fuel s (TSLexer.start (chars "\"abc"))
        (requested [COMMENT]) = none := by
  have hloop : lex_string_loop 34 fuel
      (advance (TSLexer.start (chars "\"abc")) false) = none :=
    lex_string_loop_diverges 34 fuel (chars "abc") _ (by decide) (by decide) rfl
  have hstr : lex_string fuel (TSLexer.start (chars "\"abc")) = none := by
    have hl : (TSLexer.start (chars "\"abc")).lookahead = 34 := rfl
    simp only [lex_string, hl, hloop]
    rfl
  have hid : skip_space_tabs (TSLexer.start (chars "\"abc")) = TSLexer.start (chars "\"abc") :=
    rfl
  constructor
  · rw [scan_of_no_early_gate host fuel s _ (requested [STRING]) (by rw [hid]; rfl), hid]
    have hk : scan_keywords host (requested [STRING]) (TSLexer.start (chars "\"abc")) keywords
        = (false, TSLexer.start (chars "\"abc")) := rfl
    simp only [scan_script_keyword_string, hk, hstr]
    rfl
  · rw [scan_of_no_early_gate host fuel s _ (requested [COMMENT]) (by rw [hid]; rfl), hid]
    have hk : scan_keywords host (requested [COMMENT]) (TSLexer.start (chars "\"abc")) keywords
        = (false, TSLexer.start (chars "\"abc")) := rfl
    simp only [scan_script_keyword_string, hk, hstr]
    rfl

/-- The loop of `lex_string` ends when the unread input holds the quote or a
newline, given one iteration per unread character and one more. -/
theorem lex_string_loop_returns (q : Nat) (fuel : Nat) (rest : List Nat) (lexer : TSLexer)
    (hrest : lexer.rest = rest) (hfuel : rest.length < fuel) (h : q ∈ rest ∨ 10 ∈ rest) :
    ∃ lexer1, lex_string_loop q fuel lexer = some lexer1 := by
  induction rest generalizing fuel lexer with
  | nil => simp at h
  | cons c cs ih =>
    cases fuel with
    | zero => simp at hfuel
    | succ fuel =>
      have hl : lexer.lookahead = c := lookahead_cons lexer c cs hrest
      rw [lex_string_loop, hl]
      by_cases hc : (c != q && c != 10) = true
      · rw [if_pos hc, advance_cons lexer c cs false hrest]
        simp only [Bool.and_eq_true, bne_iff_ne, ne_eq] at hc
        refine ih fuel _ rfl (by simpa using hfuel) ?_
        rcases h with h | h
        · rcases List.mem_cons.mp h with h | h
          · exact absurd h.symm hc.1
          · exact Or.inl h
        · rcases List.mem_cons.mp h with h | h
          · exact absurd h.symm hc.2
          · exact Or.inr h
      · rw [if_neg hc]
        exact ⟨lexer, rfl⟩

/-- The scan returns for every amount of fuel when neither STRING nor COMMENT is
requested: every other loop of the scanner ends on every input. -/
theorem scan_returns_without_string (host : Host) (fuel : Nat) (s : Scanner) (lexer : TSLexer)
    (valid_symbols : TokenType → Bool) (hs : valid_symbols STRING = false)
    (hc : valid_symbols COMMENT = false) :
    ∃ r, tree_sitter_vim_external_scanner_scan host fuel s lexer valid_symbols = some r := by
  unfold tree_sitter_vim_external_scanner_scan
  simp only
  repeat' split
  all_goals first
    | exact ⟨_, rfl⟩
    | (unfold scan_script_keyword_string
       simp only [hs, hc, Bool.or_self, Bool.false_eq_true, if_false]
       repeat' split
       all_goals exact ⟨_, rfl⟩)

/-! ### C12: ENDIF among other requested keyword kinds -/

/-- C12 (as stated, refuted): with ENDFUNCTION and ENDIF requested on `endif`
before a space, the ENDFUNCTION attempt consumes `end` and fails at `i`, the
ENDIF attempt then starts at `if` and fails, and the scan reports no token with
the cursor after `end`; the same holds with ENDFOR or ENDWHILE in place of
ENDFUNCTION, on hosts of either kind. -/
theorem C12_endif_after_failed_attempt_counterexample :
    tree_sitter_vim_external_scanner_scan host_signed 0
        tree_sitter_vim_external_scanner_create (TSLexer.start (chars "endif "))
        (requested [ENDFUNCTION, ENDIF])
      = some (false, tree_sitter_vim_external_scanner_create,
          { rest := chars "if ", consumed := taken (chars "end"), marked := none,
            result_symbol := NO })
    ∧ tree_sitter_vim_external_scanner_scan host_unsigned 0
        tree_sitter_vim_external_scanner_create (TSLexer.start (chars "endif "))
        (requested [ENDFUNCTION, ENDIF])
      = some (false, tree_sitter_vim_external_scanner_create,
          { rest := chars "if ", consumed := taken (chars "end"), marked := none,
            result_symbol := NO })
    ∧ (tree_sitter_vim_external_scanner_scan host_signed 0
        tree_sitter_vim_external_scanner_create (TSLexer.start (chars "endif "))
        (requested [ENDFOR, ENDIF])).map (fun r => r.1) = some false
    ∧ (tree_sitter_vim_external_scanner_scan host_signed 0
        tree_sitter_vim_external_scanner_create (TSLexer.start (chars "endif "))
        (requested [ENDWHILE, ENDIF])).map (fun r => r.1) = some false := by
  decide

/-- When ENDIF is requested and none of the keyword kinds declared before it
(ENDFUNCTION, ENDFOR, ENDWHILE) nor a block kind is, the scan of `endif` reports
ENDIF and consumes `endif`; the code does not look at the character that
follows (before a letter this is the behaviour shown under C5). -/
theorem scan_endif_first_requested_keyword (host : Host) (fuel : Nat) (s : Scanner)
    (lexer : TSLexer) (valid_symbols : TokenType → Bool) (tail : List Nat)
    (hrest : lexer.rest = chars "endif" ++ tail)
    (hv : valid_symbols ENDIF = true)
    (h1 : valid_symbols ENDFUNCTION = false) (h2 : valid_symbols ENDFOR = false)
    (h3 : valid_symbols ENDWHILE = false)
    (hs : valid_symbols EMBEDDED_SCRIPT_START = false)
    (he : valid_symbols EMDEDDED_SCRIPT_END = false) :
    tree_sitter_vim_external_scanner_scan host fuel s lexer valid_symbols
      = some (true, s,
          { rest := tail, consumed := taken (chars "endif") ++ lexer.consumed,
            marked := lexer.marked, result_symbol := ENDIF }) := by
  have hl : lexer.lookahead = 101 := lookahead_cons lexer 101 _ hrest
  have hid : skip_space_tabs lexer = lexer := skip_space_tabs_id lexer (by rw [hl]; rfl)
  have hg : early_gate valid_symbols (skip_space_tabs lexer).lookahead = false := by
    rw [hid, hl]
    simp [early_gate]
  have hk := try_lex_keyword_accepts host (chars "end") (chars "if") tail 2 lexer
    (by decide) (by decide) hrest (fun h => absurd h (by decide))
  rw [scan_of_no_early_gate host fuel s lexer valid_symbols hg, hid]
  simp only [scan_script_keyword_string, hs, he, Bool.false_eq_true, if_false, keywords,
    scan_keywords, h1, h2, h3, hv, if_true, hk]
  rfl

/-! ### C14 and the byte layout: the length check -/

/-- For a hand-built state whose terminator is `65, 0, 66`, serialize would write
`65, 0, 0` after the length; the scanner never holds such a state, see
`reachable_inv`. -/
theorem serialize_interior_zero :
    tree_sitter_vim_external_scanner_serialize { script_marker := some [65, 0, 66], marker_len := 3 }
      = ([3, 65, 0, 0], 4)
    ∧ Scanner.terminator { script_marker := some [65, 0, 66], marker_len := 3 } = [65, 0, 66] := by
  decide

/-- For every state with terminator length `L` from 0 to 255 whose buffer holds
the terminator, serialize returns `1 + L` and writes `1 + L` bytes, the first of
which is `L`; when no non-zero byte of the terminator follows a zero byte, the
next `L` bytes are the terminator, unchanged and in order. -/
theorem serialized_layout_of_wf (s : Scanner) (hwf : s.WF) :
    (tree_sitter_vim_external_scanner_serialize s).2 = 1 + s.marker_len
    ∧ (tree_sitter_vim_external_scanner_serialize s).1.length = 1 + s.marker_len
    ∧ (tree_sitter_vim_external_scanner_serialize s).1.head? = some s.marker_len
    ∧ (zero_closed s.terminator = true →
        (tree_sitter_vim_external_scanner_serialize s).1 = s.marker_len :: s.terminator) := by
  obtain ⟨h255, hlen⟩ := hwf
  have hmod : s.marker_len % 256 = s.marker_len := Nat.mod_eq_of_lt (by omega)
  have ht : s.terminator.length = s.marker_len := by
    simp [Scanner.terminator, List.length_take, hlen]
  refine ⟨?_, ?_, ?_, ?_⟩
  · simp only [tree_sitter_vim_external_scanner_serialize]
    omega
  · simp only [tree_sitter_vim_external_scanner_serialize, List.length_cons, strncpy_length]
    omega
  · simp [tree_sitter_vim_external_scanner_serialize, hmod]
  · intro hz
    have hcopy : strncpy (s.script_marker.getD []) s.marker_len = s.terminator := by
      rw [← strncpy_take]
      have := strncpy_zero_closed s.terminator hz
      rw [ht] at this
      exact this
    simp only [tree_sitter_vim_external_scanner_serialize, hmod, hcopy]

/-- C14: for every buffer of bytes, of length `n`, deserialize fails its assertion
exactly when `n` is not 0 and differs from 1 plus the first byte; for `n = 0`
it succeeds and leaves the state as it was. -/
theorem C14_deserialize_validates_length (s : Scanner) (buffer : List Nat)
    (hbytes : ∀ b ∈ buffer, b < 256) :
    (tree_sitter_vim_external_scanner_deserialize s buffer = none
        ↔ buffer.length ≠ 0 ∧ buffer.length ≠ 1 + buffer.headD 0)
    ∧ (buffer.length = 0 → tree_sitter_vim_external_scanner_deserialize s buffer = some s) := by
  have hmod : buffer.headD 0 % 256 = buffer.headD 0 := by
    cases buffer with
    | nil => rfl
    | cons b bs => exact Nat.mod_eq_of_lt (hbytes b (by simp))
  unfold tree_sitter_vim_external_scanner_deserialize
  rw [hmod]
  constructor
  · by_cases h0 : buffer.length = 0
    · simp [h0]
    · rw [if_neg h0]
      simp only
      by_cases h1 : buffer.headD 0 + 1 ≠ buffer.length
      · rw [if_pos h1]
        simp only [true_iff]
        exact ⟨h0, by omega⟩
      · rw [if_neg h1]
        have h1' : buffer.length = 1 + buffer.headD 0 := by omega
        constructor
        · intro h
          split at h <;> cases h
        · intro h
          exact absurd h1' h.2
  · intro h0
    rw [if_pos h0]

/-- C14, witness: the two-byte buffer `3, 65` is rejected, the empty buffer leaves
the state with terminator `EOF` as it was. -/
theorem C14_deserialize_validates_length_witness :
    (tree_sitter_vim_external_scanner_deserialize
          { script_marker := some (chars "EOF"), marker_len := 3 } [3, 65] = none
        ↔ [3, 65].length ≠ 0 ∧ [3, 65].length ≠ 1 + [3, 65].headD 0)
    ∧ ([3, 65].length = 0 →
        tree_sitter_vim_external_scanner_deserialize
          { script_marker := some (chars "EOF"), marker_len := 3 } [3, 65]
          = some { script_marker := some (chars "EOF"), marker_len := 3 }) :=
  C14_deserialize_validates_length { script_marker := some (chars "EOF"), marker_len := 3 }
    [3, 65] (by decide)

/-- The empty buffer leaves a state with an active terminator as it was. -/
theorem deserialize_empty_buffer (s : Scanner) :
    tree_sitter_vim_external_scanner_deserialize s [] = some s := rfl

/-! ### C15: the cap of the terminator capture -/

/-- The marker loop moves over a run `m` of characters that are no space, tab or
newline, as long as the cap is not reached, and goes on from there. -/
theorem script_marker_loop_over_run (k : Nat) (m : List Nat) (lexer : TSLexer) (acc : List Nat)
    (tail : List Nat) (hcap : acc.length + m.length ≤ 255)
    (hrest : lexer.rest = m ++ tail)
    (hm : ∀ c ∈ m, IS_SPACE_TABS c = false ∧ c ≠ 10) :
    script_marker_loop (m.length + k) lexer acc
      = script_marker_loop k
          { rest := tail, consumed := taken m ++ lexer.consumed, marked := lexer.marked,
            result_symbol := lexer.result_symbol }
          (acc ++ m.map (fun c => c % 256)) := by
  induction m generalizing lexer acc with
  | nil =>
    simp only [List.nil_append] at hrest
    simp [taken, ← hrest]
  | cons c cs ih =>
    have hl : lexer.lookahead = c := lookahead_cons lexer c (cs ++ tail) hrest
    have hc := hm c (by simp)
    simp only [List.length_cons] at hcap
    have hcond : (!IS_SPACE_TABS c && c != 10 && decide (acc.length < 255)) = true := by
      simp [hc.1, hc.2]; omega
    have hfuel : (c :: cs).length + k = (cs.length + k) + 1 := by
      simp only [List.length_cons]; omega
    rw [hfuel, script_marker_loop, hl, hcond, if_pos rfl,
      advance_cons lexer c (cs ++ tail) false hrest,
      ih _ (acc ++ [c % 256]) (by simp; omega) rfl (fun x hx => hm x (by simp [hx]))]
    simp [taken]

/-- The marker loop stops at once where the loop condition is false: at a space,
tab or newline, or with the cap reached. -/
theorem script_marker_loop_stop (k : Nat) (lexer : TSLexer) (acc : List Nat)
    (h : (IS_SPACE_TABS lexer.lookahead = true ∨ lexer.lookahead = 10) ∨ 255 ≤ acc.length) :
    script_marker_loop k lexer acc = (lexer, acc) := by
  cases k with
  | zero => rfl
  | succ k =>
    rw [script_marker_loop]
    have : (!IS_SPACE_TABS lexer.lookahead && lexer.lookahead != 10
        && decide (acc.length < 255)) = false := by
      rcases h with (h | h) | h
      · simp [h]
      · simp [h]
      · have : ¬ acc.length < 255 := by omega
        simp [this]
    rw [this]
    rfl

/-- At the end of the input the marker loop appends zero bytes until the cap
(or its bound) is reached: the lookahead `0` is no space, tab or newline. -/
theorem script_marker_loop_at_end (k : Nat) (lexer : TSLexer) (acc : List Nat)
    (hrest : lexer.rest = []) :
    script_marker_loop k lexer acc
      = (lexer, acc ++ List.replicate (min k (255 - acc.length)) 0) := by
  induction k generalizing acc with
  | zero => simp [script_marker_loop]
  | succ k ih =>
    have hl : lexer.lookahead = 0 := by simp [TSLexer.lookahead, hrest]
    have ha : advance lexer false = lexer := by simp [advance, hrest]
    rw [script_marker_loop, hl]
    by_cases hlt : acc.length < 255
    · have hcond : (!IS_SPACE_TABS 0 && (0 : Nat) != 10 && decide (acc.length < 255)) = true := by
        simp [IS_SPACE_TABS, hlt]
      rw [hcond, if_pos rfl, ha, ih]
      have : min (k + 1) (255 - acc.length) = min k (255 - (acc ++ [0 % 256]).length) + 1 := by
        simp only [List.length_append, List.length_singleton]
        omega
      rw [this, List.replicate_succ]
      simp
    · have hcond : (!IS_SPACE_TABS 0 && (0 : Nat) != 10 && decide (acc.length < 255)) = false := by
        simp [hlt]
      rw [hcond]
      have : min (k + 1) (255 - acc.length) = 0 := by omega
      simp [this]

/-- The start recognizer after `<<` and spaces/tabs: its outcome in terms of the
marker loop on the input `body` that follows. -/
theorem try_lex_script_start_eq (host : Host) (s : Scanner) (lexer : TSLexer)
    (ws body : List Nat) (hs : s.script_marker = none)
    (hws : ∀ c ∈ ws, IS_SPACE_TABS c = true) (hbody : IS_SPACE_TABS (body.headD 0) = false)
    (hrest : lexer.rest = 60 :: 60 :: (ws ++ body)) :
    try_lex_script_start host s lexer
      = (true,
          { script_marker := malloc host
              (script_marker_loop 255
                { rest := body,
                  consumed := skipped ws ++ (60, false) :: (60, false) :: lexer.consumed,
                  marked := lexer.marked, result_symbol := lexer.result_symbol } []).2.length
              (strncpy
                (script_marker_loop 255
                  { rest := body,
                    consumed := skipped ws ++ (60, false) :: (60, false) :: lexer.consumed,
                    marked := lexer.marked, result_symbol := lexer.result_symbol } []).2
                (script_marker_loop 255
                  { rest := body,
                    consumed := skipped ws ++ (60, false) :: (60, false) :: lexer.consumed,
                    marked := lexer.marked, result_symbol := lexer.result_symbol } []).2.length),
            marker_len :=
              (script_marker_loop 255
                { rest := body,
                  consumed := skipped ws ++ (60, false) :: (60, false) :: lexer.consumed,
                  marked := lexer.marked, result_symbol := lexer.result_symbol } []).2.length
                % 256 },
          (script_marker_loop 255
            { rest := body,
              consumed := skipped ws ++ (60, false) :: (60, false) :: lexer.consumed,
              marked := lexer.marked, result_symbol := lexer.result_symbol } []).1) := by
  have hl : lexer.lookahead = 60 := lookahead_cons lexer 60 _ hrest
  have ha1 := advance_cons lexer 60 _ false hrest
  have hl1 : (advance lexer false).lookahead = 60 := by rw [ha1]; rfl
  have ha2 : advance (advance lexer false) false
      = { rest := ws ++ body,
          consumed := (60, false) :: (60, false) :: lexer.consumed,
          marked := lexer.marked, result_symbol := lexer.result_symbol } := by
    rw [ha1]; rfl
  have hskip := skip_space_tabs_spec ws body
    ({ rest := ws ++ body,
       consumed := (60, false) :: (60, false) :: lexer.consumed,
       marked := lexer.marked, result_symbol := lexer.result_symbol } : TSLexer) rfl hws hbody
  simp only [try_lex_script_start, hs, Option.isSome_none, Bool.false_eq_true, if_false, hl,
    hl1, bne_self_eq_false, ha2, hskip]

/-- The terminator stored from a run of non-zero bytes of length at most 255. -/
theorem stored_terminator_of_bytes (host : Host) (m : List Nat) (hlen : m.length ≤ 255)
    (hm : ∀ c ∈ m, 0 < c ∧ c < 256) :
    Scanner.content
        { script_marker := malloc host (m.map (fun c => c % 256)).length
            (strncpy (m.map (fun c => c % 256)) (m.map (fun c => c % 256)).length),
          marker_len := (m.map (fun c => c % 256)).length % 256 }
      = (m.length, m) := by
  have hmap : m.map (fun c => c % 256) = m := by
    conv_rhs => rw [← List.map_id m]
    apply List.map_congr_left
    intro c hc
    exact Nat.mod_eq_of_lt (hm c hc).2
  have hcopy : strncpy m m.length = m :=
    strncpy_no_zero m (fun c hc => by have := (hm c hc).1; omega)
  have hmod : m.length % 256 = m.length := Nat.mod_eq_of_lt (by omega)
  rw [hmap, hcopy, hmod]
  unfold malloc Scanner.content Scanner.terminator
  split
  · rename_i h
    have : m = [] := List.eq_nil_of_length_eq_zero h.1
    simp [this]
  · simp

/-- C15 (as stated, refuted): the characters of the run are narrowed to bytes, so
after `<<`, U+0141, `B` and a newline the stored terminator is `A`, `B` (65,
66), not the run 321, 66. -/
theorem C15_wide_run_counterexample :
    (try_lex_script_start host_signed tree_sitter_vim_external_scanner_create
        (TSLexer.start [60, 60, 321, 66, 10])).1 = true
    ∧ (try_lex_script_start host_signed tree_sitter_vim_external_scanner_create
        (TSLexer.start [60, 60, 321, 66, 10])).2.1.terminator = [65, 66]
    ∧ (try_lex_script_start host_unsigned tree_sitter_vim_external_scanner_create
        (TSLexer.start [60, 60, 321, 66, 10])).2.1.terminator = [65, 66] := by
  decide

/-- C15 (amended): from a state whose `script_marker` is `NULL`, on `<<`,
spaces/tabs (possibly none) and a run of `n` characters, none a space, tab or
newline and each a non-zero code unit below 256, followed when `n < 255` by a
newline or (for a non-empty run) a space or tab, the start recognizer reports
success, stores a terminator of length `min n 255` equal to the first
`min n 255` characters of the run, and leaves the cursor right after them: on
the 256th character of the run when `n` exceeds 255. -/
theorem C15_capture_caps_at_255 (host : Host) (s : Scanner) (lexer : TSLexer)
    (ws run tail : List Nat) (hs : s.script_marker = none)
    (hws : ∀ c ∈ ws, IS_SPACE_TABS c = true)
    (hrun : ∀ c ∈ run, c ≠ 32 ∧ c ≠ 9 ∧ c ≠ 10 ∧ 0 < c ∧ c < 256)
    (hdelim : run.length < 255 →
      tail.headD 0 = 10 ∨ (run ≠ [] ∧ (tail.headD 0 = 32 ∨ tail.headD 0 = 9)))
    (hrest : lexer.rest = 60 :: 60 :: (ws ++ (run ++ tail))) :
    ∃ s1 lexer1, try_lex_script_start host s lexer = (true, s1, lexer1)
      ∧ s1.marker_len = min run.length 255 ∧ s1.terminator = run.take 255
      ∧ lexer1.rest = run.drop 255 ++ tail
      ∧ lexer1.consumed
          = taken (run.take 255) ++ (skipped ws ++ (60, false) :: (60, false) :: lexer.consumed)
      ∧ lexer1.result_symbol = lexer.result_symbol := by
  have hsplit : run ++ tail = run.take 255 ++ (run.drop 255 ++ tail) := by
    rw [← List.append_assoc, List.take_append_drop]
  have hmlen : (run.take 255).length = min run.length 255 := by
    rw [List.length_take]; omega
  have hmsp : ∀ c ∈ run.take 255, IS_SPACE_TABS c = false ∧ c ≠ 10 := by
    intro c hc
    obtain ⟨h1, h2, h3, -⟩ := hrun c (List.mem_of_mem_take hc)
    exact ⟨by simp [IS_SPACE_TABS, h1, h2], h3⟩
  have hmbytes : ∀ c ∈ run.take 255, 0 < c ∧ c < 256 := by
    intro c hc
    obtain ⟨-, -, -, h4, h5⟩ := hrun c (List.mem_of_mem_take hc)
    exact ⟨h4, h5⟩
  -- the first character after the spaces/tabs is no space or tab
  have hbody : IS_SPACE_TABS ((run ++ tail).headD 0) = false := by
    cases run with
    | nil =>
      rcases hdelim (by simp) with h | h
      · simp only [List.nil_append, h]; rfl
      · exact absurd rfl h.1
    | cons c cs => simpa using (hmsp c (by simp)).1
  -- the loop stops after the first `min n 255` characters
  have hstop : (IS_SPACE_TABS ((run.drop 255 ++ tail).headD 0) = true
      ∨ (run.drop 255 ++ tail).headD 0 = 10)
      ∨ 255 ≤ ([] ++ (run.take 255).map (fun c => c % 256)).length := by
    by_cases hn : run.length < 255
    · left
      have hdrop : run.drop 255 = [] := List.drop_eq_nil_of_le (by omega)
      rw [hdrop, List.nil_append]
      rcases hdelim hn with h | ⟨-, h | h⟩
      · exact Or.inr h
      · exact Or.inl (by rw [h]; rfl)
      · exact Or.inl (by rw [h]; rfl)
    · right
      simp only [List.nil_append, List.length_map, hmlen]
      omega
  have hfuel : 255 = (run.take 255).length + (255 - (run.take 255).length) := by
    rw [hmlen]; omega
  have hloop : script_marker_loop 255
      ({ rest := run ++ tail,
         consumed := skipped ws ++ (60, false) :: (60, false) :: lexer.consumed,
         marked := lexer.marked, result_symbol := lexer.result_symbol } : TSLexer) []
      = ({ rest := run.drop 255 ++ tail,
           consumed := taken (run.take 255)
             ++ (skipped ws ++ (60, false) :: (60, false) :: lexer.consumed),
           marked := lexer.marked, result_symbol := lexer.result_symbol },
         (run.take 255).map (fun c => c % 256)) := by
    conv_lhs => rw [hfuel]
    rw [script_marker_loop_over_run _ (run.take 255) _ [] (run.drop 255 ++ tail)
      (by simp only [List.length_nil, hmlen]; omega) hsplit hmsp]
    rw [script_marker_loop_stop (255 - (run.take 255).length)
      ({ rest := run.drop 255 ++ tail,
         consumed := taken (run.take 255)
           ++ (skipped ws ++ (60, false) :: (60, false) :: lexer.consumed),
         marked := lexer.marked, result_symbol := lexer.result_symbol } : TSLexer)
      ([] ++ (run.take 255).map (fun c => c % 256)) hstop]
    rfl
  have hstart := try_lex_script_start_eq host s lexer ws (run ++ tail) hs hws hbody hrest
  rw [hloop] at hstart
  have hcontent := stored_terminator_of_bytes host (run.take 255) (by rw [hmlen]; omega) hmbytes
  simp only [Scanner.content, Prod.mk.injEq] at hcontent
  refine ⟨_, _, hstart, ?_, hcontent.2, rfl, rfl, rfl⟩
  rw [hcontent.1, hmlen]

/-- C15, witness: a run of 256 letters `x` is cut to a terminator of 255 letters
and the cursor stays on the 256th. -/
theorem C15_capture_caps_at_255_witness :
    ∃ s1 lexer1, try_lex_script_start host_signed tree_sitter_vim_external_scanner_create
        (TSLexer.start (60 :: 60 :: ([] ++ (List.replicate 256 120 ++ []))))
        = (true, s1, lexer1)
      ∧ s1.marker_len = min (List.replicate 256 120).length 255
      ∧ s1.terminator = (List.replicate 256 120).take 255
      ∧ lexer1.rest = (List.replicate 256 120).drop 255 ++ []
      ∧ lexer1.consumed
          = taken ((List.replicate 256 120).take 255) ++ (skipped [] ++ (60, false) :: (60, false)
              :: (TSLexer.start (60 :: 60 :: ([] ++ (List.replicate 256 120 ++ [])))).consumed)
      ∧ lexer1.result_symbol
          = (TSLexer.start (60 :: 60 :: ([] ++ (List.replicate 256 120 ++ [])))).result_symbol :=
  C15_capture_caps_at_255 host_signed tree_sitter_vim_external_scanner_create
    (TSLexer.start (60 :: 60 :: ([] ++ (List.replicate 256 120 ++ [])))) [] (List.replicate 256 120) []
    rfl (by decide)
    (by
      intro c hc
      rw [(List.mem_replicate.mp hc).2]
      decide)
    (by
      intro h
      rw [List.length_replicate] at h
      omega)
    rfl

theorem zero_closed_cons_ne (c : Nat) (cs : List Nat) (hc : c ≠ 0) :
    zero_closed (c :: cs) = zero_closed cs := by
  simp [zero_closed, hc]

/-- At the end of the input the capture does not stop: after `<<EOF` with nothing
behind it the stored terminator has length 255, the three bytes of `EOF`
followed by zero bytes. -/
theorem try_lex_script_start_at_end_of_input (host : Host) :
    (try_lex_script_start host tree_sitter_vim_external_scanner_create
        (TSLexer.start (chars "<<EOF"))).2.1.content
      = (255, chars "EOF" ++ List.replicate 252 0) := by
  have hstart := try_lex_script_start_eq host tree_sitter_vim_external_scanner_create
    (TSLexer.start (chars "<<EOF")) [] (chars "EOF") rfl (by simp) rfl rfl
  have hloop : script_marker_loop 255
      ({ rest := chars "EOF",
         consumed := skipped [] ++ (60, false) :: (60, false)
           :: (TSLexer.start (chars "<<EOF")).consumed,
         marked := (TSLexer.start (chars "<<EOF")).marked,
         result_symbol := (TSLexer.start (chars "<<EOF")).result_symbol } : TSLexer) []
      = ({ rest := [],
           consumed := taken (chars "EOF") ++ (skipped [] ++ (60, false) :: (60, false)
             :: (TSLexer.start (chars "<<EOF")).consumed),
           marked := (TSLexer.start (chars "<<EOF")).marked,
           result_symbol := (TSLexer.start (chars "<<EOF")).result_symbol },
         chars "EOF" ++ List.replicate 252 0) := by
    have h1 := script_marker_loop_over_run 252 (chars "EOF")
      ({ rest := chars "EOF",
         consumed := skipped [] ++ (60, false) :: (60, false)
           :: (TSLexer.start (chars "<<EOF")).consumed,
         marked := (TSLexer.start (chars "<<EOF")).marked,
         result_symbol := (TSLexer.start (chars "<<EOF")).result_symbol } : TSLexer) [] []
      (by decide) rfl (by decide)
    have h2 := script_marker_loop_at_end 252
      ({ rest := [],
         consumed := taken (chars "EOF") ++ (skipped [] ++ (60, false) :: (60, false)
           :: (TSLexer.start (chars "<<EOF")).consumed),
         marked := (TSLexer.start (chars "<<EOF")).marked,
         result_symbol := (TSLexer.start (chars "<<EOF")).result_symbol } : TSLexer)
      ([] ++ (chars "EOF").map (fun c => c % 256)) rfl
    rw [h2] at h1
    exact h1
  rw [hstart, hloop]
  have hlen : (chars "EOF" ++ List.replicate 252 0).length = 255 := by
    rw [List.length_append, List.length_replicate]
    rfl
  have hzc : zero_closed (chars "EOF" ++ List.replicate 252 0) = true := by
    show zero_closed (69 :: 79 :: 70 :: List.replicate 252 0) = true
    rw [zero_closed_cons_ne 69 _ (by decide), zero_closed_cons_ne 79 _ (by decide),
      zero_closed_cons_ne 70 _ (by decide)]
    exact zero_closed_replicate 252
  generalize chars "EOF" ++ List.replicate 252 0 = marker at hlen hzc
  have hcopy : strncpy marker 255 = marker := by
    have := strncpy_zero_closed marker hzc
    rw [hlen] at this
    exact this
  have hmalloc : malloc host 255 marker = some marker := by
    unfold malloc
    rw [if_neg (fun h => absurd h.1 (by decide))]
  rw [hlen, hcopy, hmalloc]
  show (255 % 256, List.take (255 % 256) marker) = (255, marker)
  rw [show 255 % 256 = 255 from rfl, List.take_of_length_le (by omega)]

/-! ### C16: the option prefixes -/

/-- The scan with NO requested and lookahead `n` after the leading skip. -/
theorem scan_no_eq (host : Host) (fuel : Nat) (s : Scanner) (lexer : TSLexer)
    (valid_symbols : TokenType → Bool) (ws r : List Nat)
    (hws : ∀ c ∈ ws, IS_SPACE_TABS c = true) (hrest : lexer.rest = ws ++ 110 :: r)
    (hv : valid_symbols NO = true) :
    tree_sitter_vim_external_scanner_scan host fuel s lexer valid_symbols
      = some (( check_prefix
            { rest := r, consumed := (110, false) :: (skipped ws ++ lexer.consumed),
              marked := lexer.marked, result_symbol := lexer.result_symbol } [111] NO).1, s,
          ( check_prefix
            { rest := r, consumed := (110, false) :: (skipped ws ++ lexer.consumed),
              marked := lexer.marked, result_symbol := lexer.result_symbol } [111] NO).2) := by
  have h0 := skip_space_tabs_spec ws (110 :: r) lexer hrest hws (by simp [IS_SPACE_TABS])
  have hc : chars "no" = [110, 111] := rfl
  simp only [tree_sitter_vim_external_scanner_scan, h0, hv, hc]
  simp [TSLexer.lookahead, check_prefix, advance]

/-- The scan with INV requested and lookahead `i` after the leading skip. -/
theorem scan_inv_eq (host : Host) (fuel : Nat) (s : Scanner) (lexer : TSLexer)
    (valid_symbols : TokenType → Bool) (ws r : List Nat)
    (hws : ∀ c ∈ ws, IS_SPACE_TABS c = true) (hrest : lexer.rest = ws ++ 105 :: r)
    (hv : valid_symbols INV = true) :
    tree_sitter_vim_external_scanner_scan host fuel s lexer valid_symbols
      = some (( check_prefix
            { rest := r, consumed := (105, false) :: (skipped ws ++ lexer.consumed),
              marked := lexer.marked, result_symbol := lexer.result_symbol } [110, 118] INV).1, s,
          ( check_prefix
            { rest := r, consumed := (105, false) :: (skipped ws ++ lexer.consumed),
              marked := lexer.marked, result_symbol := lexer.result_symbol } [110, 118] INV).2) := by
  have h0 := skip_space_tabs_spec ws (105 :: r) lexer hrest hws (by simp [IS_SPACE_TABS])
  have hc : chars "inv" = [105, 110, 118] := rfl
  simp only [tree_sitter_vim_external_scanner_scan, h0, hv, hc]
  simp [TSLexer.lookahead, check_prefix, advance]

/-- C16: after leading spaces/tabs, on an input that begins with `no` a scan with
NO requested reports NO having consumed exactly those two characters; on an
input that begins with `inv` a scan with INV requested reports INV having
consumed exactly those three (whether or not NO is requested); and when the
first letter (`n` with NO requested, `i` with INV requested) is not followed by
the rest of the prefix, the scan reports no token and leaves the state as it
was. -/
theorem C16_option_negation_prefixes (host : Host) (fuel : Nat) (s : Scanner)
    (lexer : TSLexer) (valid_symbols : TokenType → Bool) (ws : List Nat)
    (hws : ∀ c ∈ ws, IS_SPACE_TABS c = true) :
    (∀ tail, lexer.rest = ws ++ 110 :: 111 :: tail → valid_symbols NO = true →
      tree_sitter_vim_external_scanner_scan host fuel s lexer valid_symbols
        = some (true, s,
            { rest := tail,
              consumed := (111, false) :: (110, false) :: (skipped ws ++ lexer.consumed),
              marked := lexer.marked, result_symbol := NO }))
    ∧ (∀ tail, lexer.rest = ws ++ 105 :: 110 :: 118 :: tail → valid_symbols INV = true →
      tree_sitter_vim_external_scanner_scan host fuel s lexer valid_symbols
        = some (true, s,
            { rest := tail,
              consumed := (118, false) :: (110, false) :: (105, false)
                :: (skipped ws ++ lexer.consumed),
              marked := lexer.marked, result_symbol := INV }))
    ∧ (∀ r, lexer.rest = ws ++ 110 :: r → valid_symbols NO = true → r.headD 0 ≠ 111 →
      (tree_sitter_vim_external_scanner_scan host fuel s lexer valid_symbols).map
        (fun x => (x.1, x.2.1)) = some (false, s))
    ∧ (∀ r, lexer.rest = ws ++ 105 :: r → valid_symbols INV = true →
      (¬ ∃ tail, r = 110 :: 118 :: tail) →
      (tree_sitter_vim_external_scanner_scan host fuel s lexer valid_symbols).map
        (fun x => (x.1, x.2.1)) = some (false, s)) := by
  refine ⟨?_, ?_, ?_, ?_⟩
  · intro tail hrest hv
    rw [scan_no_eq host fuel s lexer valid_symbols ws _ hws hrest hv]
    simp [ check_prefix, TSLexer.lookahead, advance]
  · intro tail hrest hv
    rw [scan_inv_eq host fuel s lexer valid_symbols ws _ hws hrest hv]
    simp [ check_prefix, TSLexer.lookahead, advance]
  · intro r hrest hv hne
    rw [scan_no_eq host fuel s lexer valid_symbols ws _ hws hrest hv]
    have hne' : ¬ r.head?.getD 0 = 111 := by simpa using hne
    simp [ check_prefix, TSLexer.lookahead, hne']
  · intro r hrest hv hne
    rw [scan_inv_eq host fuel s lexer valid_symbols ws _ hws hrest hv]
    cases r with
    | nil => simp [ check_prefix, TSLexer.lookahead]
    | cons a r1 =>
      by_cases ha : a = 110
      · subst ha
        cases r1 with
        | nil => simp [ check_prefix, TSLexer.lookahead, advance]
        | cons b r2 =>
          have hb : ¬ b = 118 := by
            intro hb
            exact hne ⟨r2, by rw [hb]⟩
          simp [ check_prefix, TSLexer.lookahead, advance, hb]
      · simp [ check_prefix, TSLexer.lookahead, ha]

/-- C16, witness: `  nowrap` with NO requested, and `invlist` with INV and NO
requested. -/
theorem C16_option_negation_prefixes_witness :
    tree_sitter_vim_external_scanner_scan host_signed 0
        tree_sitter_vim_external_scanner_create (TSLexer.start (chars "  nowrap"))
        (requested [NO])
      = some (true, tree_sitter_vim_external_scanner_create,
          { rest := chars "wrap",
            consumed := (111, false) :: (110, false)
              :: (skipped (chars "  ") ++ (TSLexer.start (chars "  nowrap")).consumed),
            marked := (TSLexer.start (chars "  nowrap")).marked, result_symbol := NO })
    ∧ (tree_sitter_vim_external_scanner_scan host_signed 0
        tree_sitter_vim_external_scanner_create (TSLexer.start (chars "invlist"))
        (requested [NO, INV])).map (fun x => (x.1, x.2.2.result_symbol, x.2.2.rest))
      = some (true, INV, chars "list")
    ∧ (tree_sitter_vim_external_scanner_scan host_signed 0
        tree_sitter_vim_external_scanner_create (TSLexer.start (chars "number"))
        (requested [NO])).map (fun x => x.1) = some false :=
  ⟨(C16_option_negation_prefixes host_signed 0 tree_sitter_vim_external_scanner_create
      (TSLexer.start (chars "  nowrap")) (requested [NO]) (chars "  ") (by decide)).1
      (chars "wrap") rfl rfl,
    by decide, by decide⟩

/-! ### C17: the state changes only on a block boundary -/

theorem advance_result_symbol (lexer : TSLexer) (skip : Bool) :
    (advance lexer skip).result_symbol = lexer.result_symbol := by
  unfold advance
  split <;> rfl

theorem skip_space_tabs_loop_result_symbol (n : Nat) (lexer : TSLexer) :
    (skip_space_tabs_loop n lexer).result_symbol = lexer.result_symbol := by
  induction n generalizing lexer with
  | zero => rfl
  | succ n ih =>
    rw [skip_space_tabs_loop]
    split
    · rw [ih, advance_result_symbol]
    · rfl

theorem skip_space_tabs_result_symbol (lexer : TSLexer) :
    (skip_space_tabs lexer).result_symbol = lexer.result_symbol :=
  skip_space_tabs_loop_result_symbol _ lexer

theorem script_marker_loop_result_symbol (n : Nat) (lexer : TSLexer) (acc : List Nat) :
    (script_marker_loop n lexer acc).1.result_symbol = lexer.result_symbol := by
  induction n generalizing lexer acc with
  | zero => rfl
  | succ n ih =>
    rw [script_marker_loop]
    split
    · rw [ih, advance_result_symbol]
    · rfl

/-- The start recognizer changes the state only when it succeeds, and then the
reported kind is the one set before the call. -/
theorem try_lex_script_start_frame (host : Host) (s : Scanner) (lexer : TSLexer) :
    ((try_lex_script_start host s lexer).1 = false → (try_lex_script_start host s lexer).2.1 = s)
    ∧ ((try_lex_script_start host s lexer).1 = true →
        (try_lex_script_start host s lexer).2.2.result_symbol = lexer.result_symbol) := by
  by_cases h1 : s.script_marker.isSome = true
  · simp [try_lex_script_start, h1]
  · by_cases h2 : (lexer.lookahead != 60) = true
    · simp [try_lex_script_start, h1, h2]
    · by_cases h3 : ((advance lexer false).lookahead != 60) = true
      · simp [try_lex_script_start, h1, h2, h3]
      · simp [try_lex_script_start, h1, h2, h3, script_marker_loop_result_symbol,
          skip_space_tabs_result_symbol, advance_result_symbol]

/-- C17: whenever the scan returns without a token, or with a token other than
EMBEDDED_SCRIPT_START and EMDEDDED_SCRIPT_END, the state after the call, pointer
and length (hence terminator bytes and length), is the state before it. -/
theorem C17_state_changes_only_on_block_boundary (host : Host) (fuel : Nat) (s : Scanner)
    (lexer : TSLexer) (valid_symbols : TokenType → Bool) (r : Bool × Scanner × TSLexer)
    (hr : tree_sitter_vim_external_scanner_scan host fuel s lexer valid_symbols = some r)
    (hkind : r.1 = false ∨ (r.2.2.result_symbol ≠ EMBEDDED_SCRIPT_START
      ∧ r.2.2.result_symbol ≠ EMDEDDED_SCRIPT_END)) :
    r.2.1 = s := by
  unfold tree_sitter_vim_external_scanner_scan at hr
  simp only at hr
  repeat' split at hr
  all_goals first
    | (cases hr; rfl)
    | (unfold scan_script_keyword_string at hr
       repeat' split at hr
       all_goals first
         | (cases hr; rfl)
         | (cases hr
            rcases hkind with h | h
            · cases h
            · exact absurd rfl h.2)
         | (cases hr
            obtain ⟨hf, ht⟩ := try_lex_script_start_frame host s
              { skip_space_tabs lexer with result_symbol := EMBEDDED_SCRIPT_START }
            cases hb : (try_lex_script_start host s
              { skip_space_tabs lexer with result_symbol := EMBEDDED_SCRIPT_START }).1 with
            | false => exact hf hb
            | true =>
              rcases hkind with h | h
              · rw [hb] at h; cases h
              · exact absurd (ht hb) h.1)
         | cases hr)

/-- C17, witness: with the terminator `EOF` active, a scan that reports NO on
`nowrap` leaves the state as it was. -/
theorem C17_state_changes_only_on_block_boundary_witness :
    tree_sitter_vim_external_scanner_scan host_signed 0
        { script_marker := some (chars "EOF"), marker_len := 3 } (TSLexer.start (chars "nowrap"))
        (requested [NO])
      = some (true, { script_marker := some (chars "EOF"), marker_len := 3 },
          { rest := chars "wrap", consumed := taken (chars "no"), marked := none,
            result_symbol := NO })
    ∧ ((true, ({ script_marker := some (chars "EOF"), marker_len := 3 } : Scanner),
          ({ rest := chars "wrap", consumed := taken (chars "no"), marked := none,
             result_symbol := NO } : TSLexer)) : Bool × Scanner × TSLexer).2.1
      = { script_marker := some (chars "EOF"), marker_len := 3 } :=
  ⟨by decide,
    C17_state_changes_only_on_block_boundary host_signed 0
      { script_marker := some (chars "EOF"), marker_len := 3 } (TSLexer.start (chars "nowrap"))
      (requested [NO])
      (true, { script_marker := some (chars "EOF"), marker_len := 3 },
        { rest := chars "wrap", consumed := taken (chars "no"), marked := none,
          result_symbol := NO })
      (by decide) (Or.inr ⟨by decide, by decide⟩)⟩

/-! ### C18: the leading skip -/

/-- C18: every input splits into a leading run `ws` of spaces and tabs and a
remainder `r` that starts with neither; `skip_space_tabs` moves over exactly
`ws`, each character as skipped, and over nothing else, and on return the
lookahead is no space and no tab. The scan performs this skip first: with the
empty requested set it returns no token with the cursor after the skip, and
for every requested set it gives what it gives from the cursor after the
skip. -/
theorem C18_leading_whitespace_skip (host : Host) (fuel : Nat) (s : Scanner)
    (lexer : TSLexer) :
    (∃ ws r, lexer.rest = ws ++ r ∧ (∀ c ∈ ws, c = 32 ∨ c = 9)
      ∧ r.headD 0 ≠ 32 ∧ r.headD 0 ≠ 9
      ∧ skip_space_tabs lexer
          = { rest := r, consumed := skipped ws ++ lexer.consumed, marked := lexer.marked,
              result_symbol := lexer.result_symbol })
    ∧ (skip_space_tabs lexer).lookahead ≠ 32 ∧ (skip_space_tabs lexer).lookahead ≠ 9
    ∧ tree_sitter_vim_external_scanner_scan host fuel s lexer (fun _ => false)
        = some (false, s, skip_space_tabs lexer)
    ∧ (∀ valid_symbols : TokenType → Bool,
        tree_sitter_vim_external_scanner_scan host fuel s lexer valid_symbols
          = tree_sitter_vim_external_scanner_scan host fuel s (skip_space_tabs lexer)
              valid_symbols) := by
  obtain ⟨ws, r, hsplit, hws, hr⟩ := split_space_tabs lexer.rest
  have hspec := skip_space_tabs_spec ws r lexer hsplit hws hr
  have hr2 : r.headD 0 ≠ 32 ∧ r.headD 0 ≠ 9 := by
    simp only [IS_SPACE_TABS, Bool.or_eq_false_iff, beq_eq_false_iff_ne, ne_eq] at hr
    exact hr
  have hl : (skip_space_tabs lexer).lookahead = r.headD 0 := by rw [hspec]; rfl
  have hidem : skip_space_tabs (skip_space_tabs lexer) = skip_space_tabs lexer :=
    skip_space_tabs_id _ (by rw [hl]; exact hr)
  refine ⟨⟨ws, r, hsplit, ?_, hr2.1, hr2.2, hspec⟩, ?_, ?_, ?_, ?_⟩
  · intro c hc
    have := hws c hc
    simpa [IS_SPACE_TABS] using this
  · rw [hl]; exact hr2.1
  · rw [hl]; exact hr2.2
  · simp [tree_sitter_vim_external_scanner_scan, scan_script_keyword_string, keywords,
      scan_keywords]
  · intro valid_symbols
    unfold tree_sitter_vim_external_scanner_scan
    rw [hidem]

/-! ### C19: reported kinds and requested kinds -/

theorem check_prefix_result_symbol (lexer : TSLexer) (preffix : List Nat) (token : TokenType)
    (h : ( check_prefix lexer preffix token).1 = true) :
    ( check_prefix lexer preffix token).2.result_symbol = token := by
  induction preffix generalizing lexer with
  | nil => rfl
  | cons p ps ih =>
    rw [ check_prefix] at h ⊢
    split
    · rename_i hp
      rw [if_pos hp] at h
      exact ih _ h
    · rename_i hp
      rw [if_neg hp] at h
      cases h

theorem scan_keywords_result_symbol (host : Host) (valid_symbols : TokenType → Bool)
    (lexer : TSLexer) (ks : List (TokenType × (List Nat × List Nat)))
    (h : (scan_keywords host valid_symbols lexer ks).1 = true) :
    valid_symbols (scan_keywords host valid_symbols lexer ks).2.result_symbol = true := by
  induction ks generalizing lexer with
  | nil => cases h
  | cons k ks ih =>
    obtain ⟨t, keyword⟩ := k
    rw [scan_keywords] at h ⊢
    by_cases hv : valid_symbols t = true
    · rw [if_pos hv] at h ⊢
      rcases hk : try_lex_keyword host lexer keyword with ⟨b, lexer1⟩
      rw [hk] at h
      cases b
      · exact ih lexer1 h
      · exact hv
    · rw [if_neg hv] at h ⊢
      exact ih lexer h

theorem lex_string_result_symbol (fuel : Nat) (lexer lexer1 : TSLexer)
    (h : lex_string fuel lexer = some (true, lexer1)) :
    lexer1.result_symbol = STRING ∨ lexer1.result_symbol = COMMENT := by
  unfold lex_string at h
  split at h
  · cases h
  · simp only at h
    split at h
    · cases h
    · split at h
      · cases h
        exact Or.inl rfl
      · simp only [Option.some.injEq, Prod.mk.injEq] at h
        rw [← h.2]
        exact Or.inr rfl

/-- C19 (as stated, refuted): with only STRING requested, the scan of `"abc`
before a newline reports COMMENT, and with only COMMENT requested the scan of
`'abc'` reports STRING. -/
theorem C19_string_comment_counterexample :
    (tree_sitter_vim_external_scanner_scan host_signed 10
        tree_sitter_vim_external_scanner_create (TSLexer.start (chars "\"abc\n"))
        (requested [STRING])).map (fun r => (r.1, r.2.2.result_symbol)) = some (true, COMMENT)
    ∧ requested [STRING] COMMENT = false
    ∧ (tree_sitter_vim_external_scanner_scan host_signed 10
        tree_sitter_vim_external_scanner_create (TSLexer.start (chars "'abc'"))
        (requested [COMMENT])).map (fun r => (r.1, r.2.2.result_symbol)) = some (true, STRING)
    ∧ requested [COMMENT] STRING = false := by
  decide

/-- C19 (amended): whenever the scan reports a token, its kind is requested, or it
is STRING or COMMENT and at least one of STRING and COMMENT is requested. -/
theorem C19_reported_kind_is_requested (host : Host) (fuel : Nat) (s : Scanner)
    (lexer : TSLexer) (valid_symbols : TokenType → Bool) (r : Bool × Scanner × TSLexer)
    (hr : tree_sitter_vim_external_scanner_scan host fuel s lexer valid_symbols = some r)
    (ht : r.1 = true) :
    valid_symbols r.2.2.result_symbol = true
    ∨ ((r.2.2.result_symbol = STRING ∨ r.2.2.result_symbol = COMMENT)
        ∧ (valid_symbols STRING = true ∨ valid_symbols COMMENT = true)) := by
  unfold tree_sitter_vim_external_scanner_scan at hr
  simp only at hr
  by_cases g1 : (valid_symbols NO && (skip_space_tabs lexer).lookahead == 110) = true
  · rw [if_pos g1] at hr
    cases hr
    left
    rw [check_prefix_result_symbol _ _ _ ht]
    simp only [Bool.and_eq_true] at g1
    exact g1.1
  rw [if_neg g1] at hr
  by_cases g2 : (valid_symbols INV && (skip_space_tabs lexer).lookahead == 105) = true
  · rw [if_pos g2] at hr
    cases hr
    left
    rw [check_prefix_result_symbol _ _ _ ht]
    simp only [Bool.and_eq_true] at g2
    exact g2.1
  rw [if_neg g2] at hr
  by_cases g3 : (valid_symbols CMD_SEPARATOR && valid_symbols LINE_CONTINUATION
      && (skip_space_tabs lexer).lookahead == 10) = true
  · rw [if_pos g3] at hr
    simp only [Bool.and_eq_true] at g3
    left
    repeat' split at hr
    · cases hr; exact g3.1.1
    · cases hr; exact g3.1.2
    · cases hr; exact g3.1.1
  rw [if_neg g3] at hr
  by_cases g4 : (valid_symbols CMD_SEPARATOR && valid_symbols LINE_CONTINUATION
      && (skip_space_tabs lexer).lookahead == 124) = true
  · rw [if_pos g4] at hr
    simp only [Bool.and_eq_true] at g4
    cases hr
    exact Or.inl g4.1.1
  rw [if_neg g4] at hr
  unfold scan_script_keyword_string at hr
  by_cases v1 : valid_symbols EMBEDDED_SCRIPT_START = true
  · rw [if_pos v1] at hr
    cases hr
    left
    rw [(try_lex_script_start_frame host s _).2 ht]
    exact v1
  rw [if_neg v1] at hr
  by_cases v2 : valid_symbols EMDEDDED_SCRIPT_END = true
  · rw [if_pos v2] at hr
    left
    repeat' split at hr
    · cases hr; cases ht
    · cases hr; cases ht
    · cases hr; exact v2
  rw [if_neg v2] at hr
  rcases hk : scan_keywords host valid_symbols (skip_space_tabs lexer) keywords with ⟨b, lexer1⟩
  rw [hk] at hr
  cases b
  · simp only at hr
    by_cases v3 : (valid_symbols STRING || valid_symbols COMMENT) = true
    · rw [if_pos v3] at hr
      right
      cases hs : lex_string fuel lexer1 with
      | none => rw [hs] at hr; cases hr
      | some x =>
        rw [hs] at hr
        obtain ⟨b2, lexer2⟩ := x
        cases hr
        simp only at ht
        subst ht
        exact ⟨lex_string_result_symbol fuel lexer1 lexer2 hs, by simpa using v3⟩
    · rw [if_neg v3] at hr
      cases hr
      cases ht
  · cases hr
    left
    have := scan_keywords_result_symbol host valid_symbols (skip_space_tabs lexer) keywords
      (by rw [hk])
    rw [hk] at this
    exact this

/-- C19, witness: the ENDIF reported on `endif` with ENDIF and STRING requested is
a requested kind. -/
theorem C19_reported_kind_is_requested_witness :
    tree_sitter_vim_external_scanner_scan host_signed 10
        tree_sitter_vim_external_scanner_create (TSLexer.start (chars "endif"))
        (requested [ENDIF, STRING])
      = some (true, tree_sitter_vim_external_scanner_create,
          { rest := [], consumed := taken (chars "endif"), marked := none,
            result_symbol := ENDIF })
    ∧ (requested [ENDIF, STRING] ENDIF = true
      ∨ ((ENDIF = STRING ∨ ENDIF = COMMENT)
        ∧ (requested [ENDIF, STRING] STRING = true
          ∨ requested [ENDIF, STRING] COMMENT = true))) :=
  ⟨by decide,
    C19_reported_kind_is_requested host_signed 10 tree_sitter_vim_external_scanner_create
      (TSLexer.start (chars "endif")) (requested [ENDIF, STRING])
      (true, tree_sitter_vim_external_scanner_create,
        { rest := [], consumed := taken (chars "endif"), marked := none,
          result_symbol := ENDIF })
      (by decide) rfl⟩

/-! ### C20: deserialize and the previous state -/

/-- C20 (the code at the failing input): deserializing the one-byte buffer `0` into
the state that holds the terminator `EOF` sets the length to 0 and leaves
`script_marker` as it was, not `NULL`; into the freshly created state it gives
the freshly created state. A scan with EMBEDDED_SCRIPT_START requested on `<<X`
before a newline tells the two apart: it fails from the first and succeeds,
storing `X`, from the second. -/
theorem C20_deserialize_keeps_the_pointer :
    tree_sitter_vim_external_scanner_deserialize
        { script_marker := some (chars "EOF"), marker_len := 3 } [0]
      = some { script_marker := some (chars "EOF"), marker_len := 0 }
    ∧ tree_sitter_vim_external_scanner_deserialize tree_sitter_vim_external_scanner_create [0]
      = some tree_sitter_vim_external_scanner_create
    ∧ Scanner.content { script_marker := some (chars "EOF"), marker_len := 0 } = (0, [])
    ∧ tree_sitter_vim_external_scanner_scan host_signed 0
        { script_marker := some (chars "EOF"), marker_len := 0 }
        (TSLexer.start (chars "<<X\n")) (requested [EMBEDDED_SCRIPT_START])
      = some (false, { script_marker := some (chars "EOF"), marker_len := 0 },
          { TSLexer.start (chars "<<X\n") with result_symbol := EMBEDDED_SCRIPT_START })
    ∧ (tree_sitter_vim_external_scanner_scan host_signed 0
        tree_sitter_vim_external_scanner_create
        (TSLexer.start (chars "<<X\n")) (requested [EMBEDDED_SCRIPT_START])).map
        (fun r => (r.1, r.2.1))
      = some (true, { script_marker := some (chars "X"), marker_len := 1 })
    ∧ tree_sitter_vim_external_scanner_scan host_unsigned 0
        { script_marker := some (chars "EOF"), marker_len := 0 }
        (TSLexer.start (chars "<<X\n")) (requested [EMBEDDED_SCRIPT_START])
      = some (false, { script_marker := some (chars "EOF"), marker_len := 0 },
          { TSLexer.start (chars "<<X\n") with result_symbol := EMBEDDED_SCRIPT_START }) := by
  decide

/-- A valid buffer with a non-empty terminator overwrites the state: the result of
deserialize does not depend on the state it is read into. -/
theorem deserialize_overwrites_when_nonempty (s1 s2 : Scanner) (buffer : List Nat)
    (hlen : buffer.length = 1 + buffer.headD 0 % 256) (hpos : 0 < buffer.headD 0 % 256) :
    tree_sitter_vim_external_scanner_deserialize s1 buffer
      = tree_sitter_vim_external_scanner_deserialize s2 buffer
    ∧ tree_sitter_vim_external_scanner_deserialize s1 buffer
      = some { script_marker := some (strncpy buffer.tail (buffer.headD 0 % 256)),
               marker_len := buffer.headD 0 % 256 } := by
  have h0 : ¬ buffer.length = 0 := by omega
  have h1 : ¬ (buffer.headD 0 % 256 + 1 ≠ buffer.length) := by omega
  simp only [tree_sitter_vim_external_scanner_deserialize, h0, h1, hpos, if_true, if_false,
    and_self]

/-- A valid buffer with an empty terminator only resets the length: the pointer
`script_marker` of the state it is read into is kept. -/
theorem deserialize_keeps_pointer_when_empty (s : Scanner) (buffer : List Nat)
    (hlen : buffer.length = 1) (hzero : buffer.headD 0 % 256 = 0) :
    tree_sitter_vim_external_scanner_deserialize s buffer = some { s with marker_len := 0 } := by
  have h0 : ¬ buffer.length = 0 := by omega
  simp only [tree_sitter_vim_external_scanner_deserialize, h0, hzero, if_false]
  rw [if_neg (by omega), if_neg (by omega)]

/-! ### C12 (continued): ENDIF and the keyword kinds declared before it -/

/-- No keyword recognizer of a list matches, and none consumes a character, when
the lookahead is not the first letter of any keyword of the list. -/
theorem scan_keywords_no_first_letter (host : Host) (valid_symbols : TokenType → Bool)
    (lexer : TSLexer) (ks : List (TokenType × (List Nat × List Nat)))
    (h : ∀ k ∈ ks, k.2.1 ≠ [] ∧ k.2.1.headD 0 ≠ lexer.lookahead) :
    scan_keywords host valid_symbols lexer ks = (false, lexer) := by
  induction ks with
  | nil => rfl
  | cons k ks ih =>
    obtain ⟨t, pre, suf⟩ := k
    have hk := h (t, pre, suf) (by simp)
    have ih' := ih (fun k hk => h k (by simp [hk]))
    cases pre with
    | nil => exact absurd rfl hk.1
    | cons p ps =>
      have hp : (lexer.lookahead != p) = true := by
        rw [bne_iff_ne]
        exact fun he => hk.2 he.symm
      rw [scan_keywords]
      split
      · simp only [try_lex_keyword, try_lex_keyword_mandatory, hp, if_true]
        exact ih'
      · exact ih'

/-- The keyword loop on `endif` when ENDFUNCTION, ENDFOR or ENDWHILE is requested:
the first of them that is tried consumes `end` and fails, and no later keyword
recognizer matches `if`. -/
theorem scan_keywords_endif_after_earlier_end (host : Host) (valid_symbols : TokenType → Bool)
    (lexer : TSLexer) (tail : List Nat) (hrest : lexer.rest = chars "endif" ++ tail)
    (h : valid_symbols ENDFUNCTION = true ∨ valid_symbols ENDFOR = true
      ∨ valid_symbols ENDWHILE = true) :
    scan_keywords host valid_symbols lexer keywords
      = (false, { rest := chars "if" ++ tail, consumed := taken (chars "end") ++ lexer.consumed,
                  marked := lexer.marked, result_symbol := lexer.result_symbol }) := by
  have hrest' : lexer.rest = chars "end" ++ ((chars "function").take 0 ++ (chars "if" ++ tail)) :=
    hrest
  have hci : char_to_int host ((chars "if" ++ tail).headD 0 % 256) = 105 :=
    char_to_int_small host 105 (fun _ => by decide)
  have hal : host.iswalpha (char_to_int host ((chars "if" ++ tail).headD 0 % 256)) = true := by
    rw [hci]
    exact host.iswalpha_letter 105 (by decide)
  have hfun := try_lex_keyword_rejects host (chars "end") (chars "function") (chars "if" ++ tail)
    0 102 lexer (by decide) rfl hrest' (by rw [hci]; decide) hal
  have hfor := try_lex_keyword_rejects host (chars "end") (chars "for") (chars "if" ++ tail)
    0 102 lexer (by decide) rfl hrest' (by rw [hci]; decide) hal
  have hwhile := try_lex_keyword_rejects host (chars "end") (chars "while") (chars "if" ++ tail)
    0 119 lexer (by decide) rfl hrest' (by rw [hci]; decide) hal
  have hletters : ∀ k ∈ keywords, k.2.1 ≠ [] ∧ k.2.1.headD 0 ≠ 105 := by decide
  have hafter : ∀ ks, (∀ k ∈ ks, k ∈ keywords) →
      scan_keywords host valid_symbols
        { rest := chars "if" ++ tail, consumed := taken (chars "end") ++ lexer.consumed,
          marked := lexer.marked, result_symbol := lexer.result_symbol } ks
      = (false, { rest := chars "if" ++ tail, consumed := taken (chars "end") ++ lexer.consumed,
                  marked := lexer.marked, result_symbol := lexer.result_symbol }) := by
    intro ks hks
    apply scan_keywords_no_first_letter
    intro k hk
    exact hletters k (hks k hk)
  have hsimp : taken (chars "end" ++ (chars "function").take 0) = taken (chars "end") := rfl
  have hsimp2 : taken (chars "end" ++ (chars "for").take 0) = taken (chars "end") := rfl
  have hsimp3 : taken (chars "end" ++ (chars "while").take 0) = taken (chars "end") := rfl
  rw [hsimp] at hfun
  rw [hsimp2] at hfor
  rw [hsimp3] at hwhile
  unfold keywords
  by_cases v1 : valid_symbols ENDFUNCTION = true
  · rw [scan_keywords, if_pos v1, hfun]
    exact hafter _ (by decide)
  · rw [scan_keywords, if_neg v1]
    by_cases v2 : valid_symbols ENDFOR = true
    · rw [scan_keywords, if_pos v2, hfor]
      exact hafter _ (by decide)
    · rw [scan_keywords, if_neg v2]
      by_cases v3 : valid_symbols ENDWHILE = true
      · rw [scan_keywords, if_pos v3, hwhile]
        exact hafter _ (by decide)
      · rcases h with h | h | h
        · exact absurd h v1
        · exact absurd h v2
        · exact absurd h v3



/-- The scan gives what it gives from the cursor after the leading skip. -/
theorem scan_after_skip (host : Host) (fuel : Nat) (s : Scanner) (lexer : TSLexer)
    (valid_symbols : TokenType → Bool) :
    tree_sitter_vim_external_scanner_scan host fuel s lexer valid_symbols
      = tree_sitter_vim_external_scanner_scan host fuel s (skip_space_tabs lexer)
          valid_symbols := by
  obtain ⟨ws, r, hsplit, hws, hr⟩ := split_space_tabs lexer.rest
  have hl : (skip_space_tabs lexer).lookahead = r.headD 0 := by
    rw [skip_space_tabs_spec ws r lexer hsplit hws hr]; rfl
  have hidem : skip_space_tabs (skip_space_tabs lexer) = skip_space_tabs lexer :=
    skip_space_tabs_id _ (by rw [hl]; exact hr)
  unfold tree_sitter_vim_external_scanner_scan
  rw [hidem]

theorem lex_string_not_quote (fuel : Nat) (lexer : TSLexer) (h1 : lexer.lookahead ≠ 39)
    (h2 : lexer.lookahead ≠ 34) : lex_string fuel lexer = some (false, lexer) := by
  simp [lex_string, h1, h2]

/-- C12 (amended): let ENDIF be requested and neither block kind
(EMBEDDED_SCRIPT_START, EMDEDDED_SCRIPT_END), on an input that after leading
spaces/tabs is `endif` followed by a non-alphabetic character. When none of the
keyword kinds declared before ENDIF (ENDFUNCTION, ENDFOR, ENDWHILE) is
requested, the scan reports ENDIF and has consumed `endif` (the gates of NO, INV
and the separator kinds stay closed at `e`, so those kinds may be requested or
not). When one of the three is requested, its recognizer consumes `end` and
fails, the later keyword recognizers are tried from the cursor it left, and the
scan reports no token. The character after `endif` is a condition of the claim
only: the recognizer does not look at it, and `endif` before a letter is the
subject of C5. -/
theorem C12_endif_among_requested_keywords (host : Host) (fuel : Nat) (s : Scanner)
    (lexer : TSLexer) (valid_symbols : TokenType → Bool) (ws tail : List Nat) (c : Nat)
    (hws : ∀ x ∈ ws, IS_SPACE_TABS x = true)
    (hrest : lexer.rest = ws ++ (chars "endif" ++ c :: tail))
    (hc : host.iswalpha (c : Int) = false)
    (hv : valid_symbols ENDIF = true)
    (hs : valid_symbols EMBEDDED_SCRIPT_START = false)
    (he : valid_symbols EMDEDDED_SCRIPT_END = false) :
    (valid_symbols ENDFUNCTION = false → valid_symbols ENDFOR = false →
      valid_symbols ENDWHILE = false →
      tree_sitter_vim_external_scanner_scan host fuel s lexer valid_symbols
        = some (true, s,
            { rest := c :: tail,
              consumed := taken (chars "endif") ++ (skipped ws ++ lexer.consumed),
              marked := lexer.marked, result_symbol := ENDIF }))
    ∧ ((valid_symbols ENDFUNCTION = true ∨ valid_symbols ENDFOR = true
        ∨ valid_symbols ENDWHILE = true) →
      tree_sitter_vim_external_scanner_scan host fuel s lexer valid_symbols
        = some (false, s,
            { rest := chars "if" ++ c :: tail,
              consumed := taken (chars "end") ++ (skipped ws ++ lexer.consumed),
              marked := lexer.marked, result_symbol := lexer.result_symbol })) := by
  have _ := hc
  have hskip := skip_space_tabs_spec ws (chars "endif" ++ c :: tail) lexer hrest hws (by rfl)
  rw [scan_after_skip, hskip]
  constructor
  · intro h1 h2 h3
    exact scan_endif_first_requested_keyword host fuel s _ valid_symbols (c :: tail) rfl hv
      h1 h2 h3 hs he
  · intro h
    have hid : skip_space_tabs
        ({ rest := chars "endif" ++ c :: tail, consumed := skipped ws ++ lexer.consumed,
           marked := lexer.marked, result_symbol := lexer.result_symbol } : TSLexer)
        = { rest := chars "endif" ++ c :: tail, consumed := skipped ws ++ lexer.consumed,
            marked := lexer.marked, result_symbol := lexer.result_symbol } :=
      skip_space_tabs_id _ (by rfl)
    have hg : early_gate valid_symbols
        (skip_space_tabs
          ({ rest := chars "endif" ++ c :: tail, consumed := skipped ws ++ lexer.consumed,
             marked := lexer.marked, result_symbol := lexer.result_symbol } : TSLexer)).lookahead
        = false := by
      rw [hid]
      show early_gate valid_symbols 101 = false
      simp [early_gate]
    have hk := scan_keywords_endif_after_earlier_end host valid_symbols
      ({ rest := chars "endif" ++ c :: tail, consumed := skipped ws ++ lexer.consumed,
         marked := lexer.marked, result_symbol := lexer.result_symbol } : TSLexer) (c :: tail)
      rfl h
    rw [scan_of_no_early_gate host fuel s _ valid_symbols hg, hid]
    simp only [scan_script_keyword_string, hs, he, Bool.false_eq_true, if_false, hk]
    have hstr := lex_string_not_quote fuel
      { rest := chars "if" ++ c :: tail,
        consumed := taken (chars "end") ++ (skipped ws ++ lexer.consumed),
        marked := lexer.marked, result_symbol := lexer.result_symbol }
      (show (105 : Nat) ≠ 39 by decide) (show (105 : Nat) ≠ 34 by decide)
    rw [hstr]
    split <;> rfl

/-- C12, witness: with ENDIF, ENDTRY and STRING requested, `endif` before a space
is reported as ENDIF. -/
theorem C12_endif_among_requested_keywords_witness :
    host_signed.iswalpha (32 : Int) = false
    ∧ tree_sitter_vim_external_scanner_scan host_signed 0
        tree_sitter_vim_external_scanner_create (TSLexer.start (chars " endif x"))
        (requested [ENDIF, ENDTRY, STRING])
      = some (true, tree_sitter_vim_external_scanner_create,
          { rest := 32 :: chars "x",
            consumed := taken (chars "endif")
              ++ (skipped (chars " ") ++ (TSLexer.start (chars " endif x")).consumed),
            marked := (TSLexer.start (chars " endif x")).marked, result_symbol := ENDIF }) :=
  ⟨by decide,
    (C12_endif_among_requested_keywords host_signed 0 tree_sitter_vim_external_scanner_create
      (TSLexer.start (chars " endif x")) (requested [ENDIF, ENDTRY, STRING]) (chars " ")
      (chars "x") 32 (by decide) rfl (by decide) rfl rfl rfl).1 rfl rfl rfl⟩

/-! ### C1, C13: the codec on the states the scanner holds -/

/-- Every state the scanner can hold satisfies the invariant: the length fits a
byte, the buffer holds the terminator, and no non-zero byte of the terminator
follows a zero byte. -/
theorem reachable_inv (s : Scanner) (h : Reachable s) :
    s.WF ∧ zero_closed s.terminator = true := by
  induction h with
  | create => exact inv_create
  | deserialize s s1 buffer _ hd ih => exact inv_deserialize s s1 buffer ih hd
  | scan host fuel s lexer valid_symbols r _ hr ih =>
    exact inv_scan host fuel s lexer valid_symbols r ih hr

/-- C1: for every state the scanner can hold (the state of `create`, and what
`deserialize` and `scan` make of it), whose terminator is a byte sequence of
length 0 to 255 that may contain zero bytes, serializing it and deserializing
the written bytes into a freshly created state succeeds and yields a state with
the same terminator length and the same terminator bytes. -/
theorem C1_roundtrip (s : Scanner) (h : Reachable s) :
    s.marker_len ≤ 255 ∧ s.terminator.length = s.marker_len
    ∧ roundtrip_content s = some s.content := by
  obtain ⟨hwf, hz⟩ := reachable_inv s h
  refine ⟨hwf.1, ?_, roundtrip_zero_closed s hwf hz⟩
  simp [Scanner.terminator, List.length_take, hwf.2]

/-- C1, witness: the round trip of the state with terminator `65, 0, 0`, which the
scanner holds after a start on `<<`, `A`, U+0100, `B`. -/
theorem C1_roundtrip_witness :
    Reachable { script_marker := some [65, 0, 0], marker_len := 3 }
    ∧ (({ script_marker := some [65, 0, 0], marker_len := 3 } : Scanner).marker_len ≤ 255
      ∧ (Scanner.terminator { script_marker := some [65, 0, 0], marker_len := 3 }).length
          = ({ script_marker := some [65, 0, 0], marker_len := 3 } : Scanner).marker_len
      ∧ roundtrip_content { script_marker := some [65, 0, 0], marker_len := 3 }
          = some (Scanner.content { script_marker := some [65, 0, 0], marker_len := 3 })) :=
  ⟨Reachable.scan host_signed 0 tree_sitter_vim_external_scanner_create
      (TSLexer.start [60, 60, 65, 256, 66, 10]) (requested [EMBEDDED_SCRIPT_START])
      (true, { script_marker := some [65, 0, 0], marker_len := 3 },
        { rest := [10],
          consumed := [(66, false), (256, false), (65, false), (60, false), (60, false)],
          marked := none, result_symbol := EMBEDDED_SCRIPT_START })
      Reachable.create (by decide),
    C1_roundtrip { script_marker := some [65, 0, 0], marker_len := 3 }
    (Reachable.scan host_signed 0 tree_sitter_vim_external_scanner_create
      (TSLexer.start [60, 60, 65, 256, 66, 10]) (requested [EMBEDDED_SCRIPT_START])
      (true, { script_marker := some [65, 0, 0], marker_len := 3 },
        { rest := [10],
          consumed := [(66, false), (256, false), (65, false), (60, false), (60, false)],
          marked := none, result_symbol := EMBEDDED_SCRIPT_START })
      Reachable.create (by decide))⟩

/-- C13: for every state the scanner can hold, with terminator length `L` (0 to
255), serialize returns `1 + L`, writes `L` as the first byte and writes the
`L` bytes of the terminator, unchanged and in order, as the next `L` bytes. -/
theorem C13_serialized_layout (s : Scanner) (h : Reachable s) :
    s.marker_len ≤ 255 ∧ s.terminator.length = s.marker_len
    ∧ tree_sitter_vim_external_scanner_serialize s
        = (s.marker_len :: s.terminator, 1 + s.marker_len) := by
  obtain ⟨hwf, hz⟩ := reachable_inv s h
  obtain ⟨h1, -, -, h4⟩ := serialized_layout_of_wf s hwf
  refine ⟨hwf.1, ?_, ?_⟩
  · simp [Scanner.terminator, List.length_take, hwf.2]
  · exact Prod.ext (h4 hz) h1

/-- C13, witness: the layout of the state with terminator `EOF`, held after a start
on `<<EOF`: the four bytes `3, E, O, F`. -/
theorem C13_serialized_layout_witness :
    Reachable { script_marker := some (chars "EOF"), marker_len := 3 }
    ∧ (({ script_marker := some (chars "EOF"), marker_len := 3 } : Scanner).marker_len ≤ 255
      ∧ (Scanner.terminator { script_marker := some (chars "EOF"), marker_len := 3 }).length
          = ({ script_marker := some (chars "EOF"), marker_len := 3 } : Scanner).marker_len
      ∧ tree_sitter_vim_external_scanner_serialize
          { script_marker := some (chars "EOF"), marker_len := 3 }
        = (({ script_marker := some (chars "EOF"), marker_len := 3 } : Scanner).marker_len
            :: Scanner.terminator { script_marker := some (chars "EOF"), marker_len := 3 },
          1 + ({ script_marker := some (chars "EOF"), marker_len := 3 } : Scanner).marker_len)) :=
  ⟨Reachable.scan host_signed 0 tree_sitter_vim_external_scanner_create
      (TSLexer.start (chars "<<EOF\n")) (requested [EMBEDDED_SCRIPT_START])
      (true, { script_marker := some (chars "EOF"), marker_len := 3 },
        { rest := [10], consumed := taken (chars "<<EOF"), marked := none,
          result_symbol := EMBEDDED_SCRIPT_START })
      Reachable.create (by decide),
    C13_serialized_layout { script_marker := some (chars "EOF"), marker_len := 3 }
    (Reachable.scan host_signed 0 tree_sitter_vim_external_scanner_create
      (TSLexer.start (chars "<<EOF\n")) (requested [EMBEDDED_SCRIPT_START])
      (true, { script_marker := some (chars "EOF"), marker_len := 3 },
        { rest := [10], consumed := taken (chars "<<EOF"), marked := none,
          result_symbol := EMBEDDED_SCRIPT_START })
      Reachable.create (by decide))⟩

end VimScanner
